import Mathlib

/-!
Verification of the E3SM/SCREAM horizontal-remap engine (`GSMap`/`GSSegment`,
from `components/scream/src/share/field/field_utils.hpp` translation unit
`horizontal_remap_utility`) and of the MAM aerosol coupling layer
(`mam_coupling.hpp`).

Conventions of the embedding:
* `Real` (a C++ `double`) is modelled by `ℚ`; statements about exact values
  are exact in this model, and the machine epsilon of `double` appears as
  the literal `2⁻⁵²` where the source uses `std::numeric_limits<Real>::epsilon()`.
* Kokkos 1-d views are modelled by `List`s; a freshly allocated view is
  zero-initialized, which is why out-of-range reads in loop translations use
  `getD _ 0` (in-range behaviour is identical, and the theorems carry the
  length invariants of the source).
* Fatal error macros (`EKAT_REQUIRE*`) are modelled by `Option`: `none` is
  a fatal abort.
-/

namespace Scream

/-- `gid_type` is `int` in the source; DOF ids are modelled as `Int`. -/
abbrev GidType := Int

/-- One remap segment: the full contribution of a single target DOF.
Mirrors `GSSegment` in `horizontal_remap_utility`: a target dof id, a
declared length, and three arrays (source dofs, resolved source indices,
weights) that are allocated with `m_length` entries by the constructors. -/
structure GSSegment where
  m_dof : GidType
  m_length : Nat
  m_source_dofs : List GidType
  m_source_idx : List Nat
  m_weights : List ℚ
  m_dof_idx : Nat
deriving Repr, DecidableEq

namespace GSSegment

/-- Well-formedness used by the source's own `check`: each of the three
arrays has extent equal to the declared length `m_length`. -/
def wf (s : GSSegment) : Prop :=
  s.m_source_dofs.length = s.m_length ∧
  s.m_weights.length = s.m_length ∧
  s.m_source_idx.length = s.m_length

instance (s : GSSegment) : Decidable s.wf := by
  unfold wf; infer_instance

/-- `GSSegment(dof_gid, length)`: allocates the three arrays with `length`
entries; Kokkos views are zero-initialized. -/
def mk0 (dof_gid : GidType) (length : Nat) : GSSegment :=
  { m_dof := dof_gid
  , m_length := length
  , m_source_dofs := List.replicate length 0
  , m_source_idx := List.replicate length 0
  , m_weights := List.replicate length 0
  , m_dof_idx := 0 }

/-- `GSSegment(dof_gid, length, source_dofs, weights)`: allocates the arrays
and deep-copies the given source dofs and weights into them. -/
def mkFrom (dof_gid : GidType) (length : Nat)
    (source_dofs : List GidType) (weights : List ℚ) : GSSegment :=
  { m_dof := dof_gid
  , m_length := length
  , m_source_dofs := source_dofs
  , m_source_idx := List.replicate length 0
  , m_weights := weights
  , m_dof_idx := 0 }

/-- Machine epsilon of the C++ `Real` (`double`): `2⁻⁵²`. -/
def machineEps : ℚ := 1 / 2 ^ 52

/-- `GSSegment::check()`.  The three `EKAT_REQUIRE_MSG` length checks are
fatal (modelled by `none`); then the weights are summed by a reduction over
`m_length` entries and the result compared against `1.0` with tolerance
`epsilon * 100`: the function returns `false` iff `|wgt - 1.0| >= tol`. -/
def check (s : GSSegment) : Option Bool :=
  if s.m_source_dofs.length = s.m_length then
    if s.m_weights.length = s.m_length then
      if s.m_source_idx.length = s.m_length then
        let wgt : ℚ := ((List.range s.m_length).map (fun i => s.m_weights.getD i 0)).sum
        let tol : ℚ := machineEps * 100
        if |wgt - 1| ≥ tol then some false else some true
      else none
    else none
  else none

/-- `GSSegment::apply_segment(source_data, remapped_value)`: a parallel
reduction over the segment's entries; the reduced value
`Σ source_data(source_idx(i)) * weights(i)` is assigned to the output slot. -/
def apply_segment (s : GSSegment) (source_data : List ℚ) : ℚ :=
  ((List.range s.m_length).map
    (fun i => source_data.getD (s.m_source_idx.getD i 0) 0 * s.m_weights.getD i 0)).sum

end GSSegment

/-- The gather/scatter remap map.  Mirrors `GSMap`: a zero-based local DOF
id list, the ordered segment list, and the derived unique-source-dof cache.
The communicator and the map name are irrelevant to the verified behaviour
and are omitted; `m_num_dofs` and `m_num_segments` are kept because the
source indexes loops by them. -/
structure GSMap where
  m_dofs_gids : List GidType
  m_num_dofs : Nat
  m_map_segments : List GSSegment
  m_num_segments : Nat
  m_unique_dofs : List GidType
  m_unique_set : Bool
  m_dofs_set : Bool
deriving Repr, DecidableEq

namespace GSMap

/-- `GSMap::set_dof_gids(dofs_gids, min_dof)`: requires a non-empty input
(`EKAT_REQUIRE`, modelled by `none`), stores `dofs_gids(i) - min_dof`, and
marks the map dofs-set. -/
def set_dof_gids (m : GSMap) (dofs_gids : List GidType) (min_dof : GidType) :
    Option GSMap :=
  if dofs_gids.length > 0 then
    some { m with
      m_dofs_gids := dofs_gids.map (fun g => g - min_dof)
      , m_num_dofs := dofs_gids.length
      , m_dofs_set := true }
  else none

/-- The list of source-dof values a segment's loops actually read:
entries `0 ≤ i < m_length` of `m_source_dofs` (a fresh Kokkos view reads 0
past the stored data; under `GSSegment.wf` this is just `m_source_dofs`). -/
def segSrcRead (s : GSSegment) : List GidType :=
  (List.range s.m_length).map (fun i => s.m_source_dofs.getD i 0)

/-- The inner loop of `set_unique_source_dofs` collecting unique source
dofs: push each scanned dof that is not already present. -/
def collectUnique (segs : List GSSegment) : List GidType :=
  segs.foldl (fun acc seg =>
    (segSrcRead seg).foldl (fun acc2 d => if d ∈ acc2 then acc2 else acc2 ++ [d]) acc) []

/-- The per-segment resolution loop of `set_unique_source_dofs`: look up the
segment's target dof in the local dof list (`EKAT_REQUIRE(seg_dof_found)`
is fatal when absent), set `m_dof_idx` to its position, and set every
`m_source_idx(i)` to the position of `m_source_dofs(i)` in the unique list
(`std::find` followed by iterator subtraction: `List.indexOf`). -/
def resolveSegs (dofs_gids : List GidType) (unique : List GidType) :
    List GSSegment → Option (List GSSegment)
  | [] => some []
  | seg :: rest =>
    match dofs_gids.findIdx? (fun g => seg.m_dof = g) with
    | none => none
    | some ii =>
      match resolveSegs dofs_gids unique rest with
      | none => none
      | some rest' =>
        some ({ seg with
          m_dof_idx := ii
          , m_source_idx := (segSrcRead seg).map (fun d => unique.indexOf d) } :: rest')

/-- `GSMap::set_unique_source_dofs()`: collect the deduplicated source dofs
of all segments, sort ascending (`std::sort`), store them as the unique
cache, then resolve each segment's `m_dof_idx` and `m_source_idx`. -/
def set_unique_source_dofs (m : GSMap) : Option GSMap :=
  let unique := (collectUnique m.m_map_segments).insertionSort (· ≤ ·)
  match resolveSegs m.m_dofs_gids unique m.m_map_segments with
  | none => none
  | some segs' =>
    some { m with
      m_unique_dofs := unique
      , m_unique_set := true
      , m_map_segments := segs' }

/-- The merged segment built by `GSMap::add_remap_segment` when a segment
for the same dof exists: a fresh `GSSegment(seg_dof, new_length)` whose
first `match_len` entries are copied from the already-present segment and
whose next `seg_len` entries are copied from the incoming one. -/
def mergeSegments (seg_match seg : GSSegment) : GSSegment :=
  let match_len := seg_match.m_length
  let new_length := seg.m_length + seg_match.m_length
  { m_dof := seg.m_dof
  , m_length := new_length
  , m_source_dofs := (List.range new_length).map (fun i =>
      if i < match_len then seg_match.m_source_dofs.getD i 0
      else seg.m_source_dofs.getD (i - match_len) 0)
  , m_source_idx := (List.range new_length).map (fun i =>
      if i < match_len then seg_match.m_source_idx.getD i 0
      else seg.m_source_idx.getD (i - match_len) 0)
  , m_weights := (List.range new_length).map (fun i =>
      if i < match_len then seg_match.m_weights.getD i 0
      else seg.m_weights.getD (i - match_len) 0)
  , m_dof_idx := 0 }

/-- `GSMap::add_remap_segment(seg)`: linear scan for a segment with the same
target dof; append when absent, replace by the merged segment when present;
update `m_num_segments`; recompute the unique-source-dof cache when it was
already resolved (which can hit the fatal lookup in
`set_unique_source_dofs`, hence `Option`). -/
def add_remap_segment (m : GSMap) (seg : GSSegment) : Option GSMap :=
  let segments' :=
    match m.m_map_segments.findIdx? (fun s => s.m_dof = seg.m_dof) with
    | none => m.m_map_segments ++ [seg]
    | some loc =>
      m.m_map_segments.set loc (mergeSegments (m.m_map_segments.getD loc (GSSegment.mk0 0 0)) seg)
  let m' := { m with m_map_segments := segments', m_num_segments := segments'.length }
  if m'.m_unique_set then m'.set_unique_source_dofs else some m'

/-- `GSMap::apply_remap(source_data, remapped_data)` (the 1-d overload):
a no-op when this rank owns zero dofs; otherwise each segment's weighted
sum is written into the target at the segment's `m_dof_idx`, all other
entries of the target are untouched.  (`create_mirror_view` of a
host-resident view aliases it, so the untouched entries keep their values.) -/
def apply_remap (m : GSMap) (source_data remapped_data : List ℚ) : List ℚ :=
  if m.m_num_dofs = 0 then remapped_data
  else m.m_map_segments.foldl
    (fun acc seg => acc.set seg.m_dof_idx (seg.apply_segment source_data)) remapped_data

end GSMap

/-! ### The chunk partition of `GSMap::set_remap_segments_from_file`

`set_remap_segments_from_file` divides the `n_s` sparse entries of the remap
file across the `num_ranks` MPI ranks: `my_chunk = n_s / num_ranks`, plus 1
when `my_rank < remainder`; each rank starts after the chunks of the lower
ranks.  `n_s` and the rank count are nonnegative (`Nat`). -/

/-- The chunk size computed by rank `r` (source lines: `my_chunk`,
`remainder`, and the conditional increment). -/
def my_chunk (n_s num_ranks r : Nat) : Nat :=
  let chunk := n_s / num_ranks
  let remainder := n_s - chunk * num_ranks
  if remainder ≠ 0 then (if r < remainder then chunk + 1 else chunk) else chunk

/-- The start offset of rank `r`: the sum of the gathered chunk sizes of all
lower ranks (source: the `my_start` accumulation loop). -/
def my_start (n_s num_ranks r : Nat) : Nat :=
  ∑ i ∈ Finset.range r, my_chunk n_s num_ranks i

/-- The consistency value the source checks against `n_s`
(`chunk_check`, summed over all ranks; a mismatch is fatal). -/
def chunk_check (n_s num_ranks : Nat) : Nat :=
  ∑ i ∈ Finset.range num_ranks, my_chunk n_s num_ranks i

/-- Step 2 of `set_remap_segments_from_file`: group the rank's chunk of the
`row` array into (target dof, start offset, run length) triples of maximal
contiguous equal runs.  The source unconditionally reads `tgt_col_h(0)`
before the loop, so an empty chunk is an out-of-bounds access (`none`).
The accumulator keeps the triple list reversed so the head is the
`back()` the source appends to. -/
def group_chunks (start : Nat) (rows : List GidType) :
    Option (List (GidType × Nat × Nat)) :=
  match rows with
  | [] => none
  | r0 :: rest =>
    let step := fun (st : List (GidType × Nat × Nat) × Nat) (r : GidType) =>
      let ii := st.2
      match st.1 with
      | [] => ([(r, start + ii, 1)], ii + 1)
      | (d, s, len) :: t =>
        if r = d then ((d, s, len + 1) :: t, ii + 1)
        else ((r, start + ii, 1) :: (d, s, len) :: t, ii + 1)
    some ((rest.foldl step ([(r0, start, 1)], 1)).1.reverse)

end Scream

namespace MamCoupling

/-! ### Species/mode registry and field-name synthesizer (`mam_coupling.hpp`) -/

/-- `num_aero_modes()` (mam4 has 4 modes). -/
def num_aero_modes : Nat := 4

/-- `num_aero_species()` (7 aerosol species ids). -/
def num_aero_species : Nat := 7

/-- `num_aero_gases()` (6 aerosol-related gases). -/
def num_aero_gases : Nat := 6

/-- `num_aero_tracers()`: total valid (mode, species) pairs, `7 + 4 + 7 + 3`. -/
def num_aero_tracers : Nat := 7 + 4 + 7 + 3

/-- The empty string (a zero-initialized static `char` buffer slot). -/
def blank : String := ""

/-- `aero_mode_name(mode)`: the 1-based mode-index strings. -/
def aero_mode_name (mode : Nat) : String :=
  ["1", "2", "3", "4"].getD mode blank

/-- `aero_species_name(species_id)`: symbolic species names, indexed by the
integer value of `mam4::AeroId`. -/
def aero_species_name (species_id : Nat) : String :=
  ["soa", "so4", "pom", "bc", "nacl", "dst", "mom"].getD species_id blank

/-- `gas_species_name(gas_id)`: symbolic gas names, indexed by the integer
value of `mam4::GasId`. -/
def gas_species_name (gas_id : Nat) : String :=
  ["O3", "H2O2", "H2SO4", "SO2", "DMS", "SOAG"].getD gas_id blank

/-- Modelled from the spec: `mam4::mode_aero_species(mode, species)` lives in
mam4xx (`aero_modes.hpp`), outside this repository.  The spec makes the
mode→species validity table authoritative with 7/4/7/3 valid species for the
accumulation/aitken/coarse/primary-carbon modes, invalid combinations being
the sentinel `AeroId::None` (here `Option.none`); the per-mode species
identities follow the orderings recorded in this repository's
`DECLARE_PROG_TRANSFER_CONSTANTS` table comments.  Returns the `AeroId`
integer of the `species`-th species of `mode`, or `none`. -/
def mode_aero_species (mode species : Nat) : Option Nat :=
  let soa := 0; let so4 := 1; let pom := 2; let bc := 3
  let nacl := 4; let dst := 5; let mom := 6
  let table : List (List Nat) :=
    [ [soa, so4, pom, bc, nacl, dst, mom]  -- accumulation mode
    , [soa, so4, nacl, mom]                -- aitken mode
    , [dst, nacl, so4, bc, pom, soa, mom]  -- coarse mode
    , [pom, bc, mom] ]                     -- primary carbon mode
  (table.getD mode []).get? species

/-- Modelled from the spec: `mam4::aerosol_index_for_mode(mode, aero_id)`
(mam4xx) resolves an `AeroId` to its position within the mode's species
list; the registry above is the single source of truth consulted. -/
def aerosol_index_for_mode (mode : Nat) (aero_id : Nat) : Nat :=
  ((List.range num_aero_species).filterMap (fun s => mode_aero_species mode s)).indexOf aero_id

/-- A name cache: the static
`char ..._names_[num_aero_modes()][num_aero_species()][max_field_name_len()]`
buffers, zero-initialized (all slots the empty string). -/
def NameCache := Nat → Nat → String

/-- The zero-initialized static buffer. -/
def emptyCache : NameCache := fun _ _ => blank

/-- Writing one cache slot. -/
def cacheWrite (c : NameCache) (mode species : Nat) (v : String) : NameCache :=
  fun m s => if m = mode ∧ s = species then v else c m s

/-- `int_aero_mmr_field_name(mode, species)`: if the cached slot is still
empty, consult the registry; when the species is valid for the mode, write
`"<species>_a<mode>"` into the slot.  Returns the slot's (possibly updated)
content together with the updated static buffer. -/
def int_aero_mmr_field_name (c : NameCache) (mode species : Nat) :
    String × NameCache :=
  if c mode species = blank then
    match mode_aero_species mode species with
    | some aero_id =>
      let nm := aero_species_name aero_id ++ "_a" ++ aero_mode_name mode
      (nm, cacheWrite c mode species nm)
    | none => (blank, c)
  else (c mode species, c)

/-- `cld_aero_mmr_field_name(mode, species)`: as the interstitial variant,
with `"_c"` and its own static buffer. -/
def cld_aero_mmr_field_name (c : NameCache) (mode species : Nat) :
    String × NameCache :=
  if c mode species = blank then
    match mode_aero_species mode species with
    | some aero_id =>
      let nm := aero_species_name aero_id ++ "_c" ++ aero_mode_name mode
      (nm, cacheWrite c mode species nm)
    | none => (blank, c)
  else (c mode species, c)

/-! ### Wet/dry mixing-ratio conversion kernels -/

/-- Modelled from the spec:
`PhysicsFunctions::calculate_drymmr_from_wetmmr(wetmmr, qv_wet)` lives in
`scream_common_physics_functions`, outside this repository.  Per the spec's
design note the conversion is the standard identity
`dry = wet / (1 - qv_wet)`, with the wet water-vapor mixing ratio of the
level as the factor. -/
def calculate_drymmr_from_wetmmr (wetmmr qv_wet : ℚ) : ℚ :=
  wetmmr / (1 - qv_wet)

/-- Modelled from the spec:
`PhysicsFunctions::calculate_wetmmr_from_drymmr(drymmr, qv_dry)` (same
collaborator), the inverse identity `wet = dry / (1 + qv_dry)` with the dry
water-vapor mixing ratio as the factor. -/
def calculate_wetmmr_from_drymmr (drymmr qv_dry : ℚ) : ℚ :=
  drymmr / (1 + qv_dry)

/-- Which optional `AerosolState` slots are populated (a view with a null
`data()` pointer is an unpopulated slot and is skipped by the kernels).
Interstitial number and gas slots are mandatory in the kernels, so only
the optional slots carry a flag. -/
structure AeroPattern where
  cldNmr : Nat → Bool
  intMmr : Nat → Nat → Bool
  cldMmr : Nat → Nat → Bool

/-- The values of one `AerosolState` at a fixed (column, level): modal
interstitial/cloudborne numbers, per-(mode,species) interstitial/cloudborne
masses, and per-gas masses.  The conversion kernels are strictly
per-(column,level), so the embedding works on this slice. -/
structure AeroStateK where
  int_aero_nmr : Nat → ℚ
  cld_aero_nmr : Nat → ℚ
  int_aero_mmr : Nat → Nat → ℚ
  cld_aero_mmr : Nat → Nat → ℚ
  gas_mmr : Nat → ℚ

/-- The aerosol overload of `compute_dry_mixing_ratios` at one
(column, level): every populated slot of the wet state is converted with
the wet water-vapor mixing ratio `qv_ik` of that level as the factor and
written into the dry state; unpopulated slots of the dry state are left
as they were. -/
def compute_dry_mixing_ratios (pat : AeroPattern) (qv_ik : ℚ)
    (wet dry : AeroStateK) : AeroStateK :=
  { int_aero_nmr := fun m =>
      if m < MamCoupling.num_aero_modes then
        calculate_drymmr_from_wetmmr (wet.int_aero_nmr m) qv_ik
      else dry.int_aero_nmr m
  , cld_aero_nmr := fun m =>
      if m < MamCoupling.num_aero_modes ∧ pat.cldNmr m then
        calculate_drymmr_from_wetmmr (wet.cld_aero_nmr m) qv_ik
      else dry.cld_aero_nmr m
  , int_aero_mmr := fun m a =>
      if m < MamCoupling.num_aero_modes ∧ a < MamCoupling.num_aero_species ∧ pat.intMmr m a then
        calculate_drymmr_from_wetmmr (wet.int_aero_mmr m a) qv_ik
      else dry.int_aero_mmr m a
  , cld_aero_mmr := fun m a =>
      if m < MamCoupling.num_aero_modes ∧ a < MamCoupling.num_aero_species ∧ pat.cldMmr m a then
        calculate_drymmr_from_wetmmr (wet.cld_aero_mmr m a) qv_ik
      else dry.cld_aero_mmr m a
  , gas_mmr := fun g =>
      if g < MamCoupling.num_aero_gases then
        calculate_drymmr_from_wetmmr (wet.gas_mmr g) qv_ik
      else dry.gas_mmr g }

/-- The aerosol `compute_wet_mixing_ratios` at one (column, level): the
inverse direction, with the dry water-vapor mixing ratio `qv_ik`
(`dry_atm.qv(i,k)`) as the factor. -/
def compute_wet_mixing_ratios (pat : AeroPattern) (qv_ik : ℚ)
    (dry wet : AeroStateK) : AeroStateK :=
  { int_aero_nmr := fun m =>
      if m < MamCoupling.num_aero_modes then
        calculate_wetmmr_from_drymmr (dry.int_aero_nmr m) qv_ik
      else wet.int_aero_nmr m
  , cld_aero_nmr := fun m =>
      if m < MamCoupling.num_aero_modes ∧ pat.cldNmr m then
        calculate_wetmmr_from_drymmr (dry.cld_aero_nmr m) qv_ik
      else wet.cld_aero_nmr m
  , int_aero_mmr := fun m a =>
      if m < MamCoupling.num_aero_modes ∧ a < MamCoupling.num_aero_species ∧ pat.intMmr m a then
        calculate_wetmmr_from_drymmr (dry.int_aero_mmr m a) qv_ik
      else wet.int_aero_mmr m a
  , cld_aero_mmr := fun m a =>
      if m < MamCoupling.num_aero_modes ∧ a < MamCoupling.num_aero_species ∧ pat.cldMmr m a then
        calculate_wetmmr_from_drymmr (dry.cld_aero_mmr m a) qv_ik
      else wet.cld_aero_mmr m a
  , gas_mmr := fun g =>
      if g < MamCoupling.num_aero_gases then
        calculate_wetmmr_from_drymmr (dry.gas_mmr g) qv_ik
      else wet.gas_mmr g }

/-! ### Scratch buffer sizing (`buffer_size` / `init_buffer`) -/

/-- `Buffer::num_2d_scratch`. -/
def num_2d_scratch : Nat := 10

/-- `Buffer::num_2d_mid`: 8 dry-atmosphere fields, interstitial+cloudborne
number and mass fields, gas fields, and the scratch fields. -/
def num_2d_mid : Nat :=
  8 + 2 * (num_aero_modes + num_aero_tracers) + num_aero_gases + num_2d_scratch

/-- `Buffer::num_2d_iface`. -/
def num_2d_iface : Nat := 1

/-- `sizeof(Real)` for the C++ `double`. -/
def sizeof_real : Nat := 8

/-- `buffer_size(ncol, nlev)`: bytes of device memory needed by `Buffer`. -/
def buffer_size (ncol nlev : Nat) : Nat :=
  sizeof_real * (num_2d_mid * (ncol * nlev) + num_2d_iface * (ncol * (nlev + 1)))

/-- The pointer-advancing loop of `init_buffer`: bind each field, in order,
to the sub-range `[base, base + size)` of the arena and advance the cursor
by the field's extent.  Returns the (offset, size) region of every field. -/
def carve (base : Nat) : List Nat → List (Nat × Nat)
  | [] => []
  | sz :: rest => (base, sz) :: carve (base + sz) rest

/-- `init_buffer(buffer_manager, ncol, nlev, buffer)`: binds the
`num_2d_mid` midpoint views (each `ncol × nlev`) and then the
`num_2d_iface` interface views (each `ncol × (nlev+1)`) to consecutive
regions of the single arena, and returns
`(mem - buffer_manager.get_memory()) * sizeof(Real)` bytes.
The embedding returns the bound regions (in `Real` units) and the byte
count. -/
def init_buffer (ncol nlev : Nat) : List (Nat × Nat) × Nat :=
  let sizes := List.replicate num_2d_mid (ncol * nlev)
    ++ List.replicate num_2d_iface (ncol * (nlev + 1))
  (carve 0 sizes, sizes.sum * sizeof_real)

/-! ### Work-array transfer (chemistry interface)

`DECLARE_PROG_TRANSFER_CONSTANTS` fixes three tables of length
`gas_pcnst()` assigning each flat constituent index a gas, an
(mode, species) aerosol mass, or a modal number. -/

/-- `gas_pcnst()` comes from `mam4::gas_chemistry`; the transfer tables in
this repository enumerate its 31 entries (6 gases + 8 + 5 + 8 + 3+1 modal
columns). -/
def gas_pcnst : Nat := 31

/-- `mode_for_cnst`: constituent → aerosol mode (`NoMode` ↦ `none`);
modes are Accumulation 0, Aitken 1, Coarse 2, PrimaryCarbon 3. -/
def mode_for_cnst : List (Option Nat) :=
  [none, none, none, none, none, none,
   some 0, some 0, some 0, some 0, some 0, some 0, some 0, some 0,
   some 1, some 1, some 1, some 1, some 1,
   some 2, some 2, some 2, some 2, some 2, some 2, some 2, some 2,
   some 3, some 3, some 3, some 3]

/-- `aero_for_cnst`: constituent → aerosol species id (`NoAero` ↦ `none`);
species are SOA 0, SO4 1, POM 2, BC 3, NaCl 4, DST 5, MOM 6. -/
def aero_for_cnst : List (Option Nat) :=
  [none, none, none, none, none, none,
   some 1, some 2, some 0, some 3, some 5, some 4, some 6, none,
   some 1, some 0, some 4, some 6, none,
   some 5, some 4, some 1, some 3, some 2, some 0, some 6, none,
   some 2, some 3, some 6, none]

/-- `gas_for_cnst`: constituent → gas id (`NoGas` ↦ `none`);
gases are O3 0, H2O2 1, H2SO4 2, SO2 3, DMS 4, SOAG 5. -/
def gas_for_cnst : List (Option Nat) :=
  [some 0, some 1, some 2, some 3, some 4, some 5,
   none, none, none, none, none, none, none, none,
   none, none, none, none, none,
   none, none, none, none, none, none, none, none,
   none, none, none, none]

/-- Table lookup at constituent index `i`. -/
def modeFor (i : Nat) : Option Nat := mode_for_cnst.getD i none

/-- Table lookup at constituent index `i`. -/
def aeroFor (i : Nat) : Option Nat := aero_for_cnst.getD i none

/-- Table lookup at constituent index `i`. -/
def gasFor (i : Nat) : Option Nat := gas_for_cnst.getD i none

/-- The values of a `mam4::Prognostics` at a fixed vertical level `k`:
modal interstitial/cloudborne numbers, per-(mode, in-mode-species-index)
interstitial/cloudborne masses, and per-gas masses.  The transfer
functions read and write only level `k`, so the embedding works on this
slice. -/
structure PrognosticsK where
  n_mode_i : Nat → ℚ
  n_mode_c : Nat → ℚ
  q_aero_i : Nat → Nat → ℚ
  q_aero_c : Nat → Nat → ℚ
  q_gas : Nat → ℚ

/-- `transfer_prognostics_to_work_arrays`, entry `q[i]`: gases copy the gas
value, aerosol species copy the interstitial mass at the resolved in-mode
index, modal-number constituents copy the interstitial number.  (Every
non-gas constituent of the table carries a mode; the `none` mode branch is
unreachable.) -/
def workQ (p : PrognosticsK) (i : Nat) : ℚ :=
  match gasFor i with
  | some g => p.q_gas g
  | none =>
    match modeFor i with
    | none => 0
    | some m =>
      match aeroFor i with
      | some aero_id => p.q_aero_i m (aerosol_index_for_mode m aero_id)
      | none => p.n_mode_i m

/-- `transfer_prognostics_to_work_arrays`, entry `qqcw[i]`: gases copy the
same gas value into both arrays, aerosol species copy the cloudborne mass,
modal-number constituents copy the cloudborne number. -/
def workQqcw (p : PrognosticsK) (i : Nat) : ℚ :=
  match gasFor i with
  | some g => p.q_gas g
  | none =>
    match modeFor i with
    | none => 0
    | some m =>
      match aeroFor i with
      | some aero_id => p.q_aero_c m (aerosol_index_for_mode m aero_id)
      | none => p.n_mode_c m

/-- Modelled from the spec: `mam4::conversions::vmr_from_mmr(mmr, mw)`
(mam4xx) converts a mass mixing ratio to a volume mixing ratio via the
species molecular weight against dry air. -/
def vmr_from_mmr (mw_air mmr mw : ℚ) : ℚ := mmr * (mw_air / mw)

/-- Modelled from the spec: `mam4::conversions::mmr_from_vmr(vmr, mw)`
(mam4xx), the inverse conversion. -/
def mmr_from_vmr (mw_air vmr mw : ℚ) : ℚ := vmr * (mw / mw_air)

/-- `convert_work_arrays_to_vmr`, one entry: gases and aerosol species are
converted with their molecular weight (`gas_species(g)` resp.
`aero_species(a)` registries, modelled from the spec as arbitrary weight
tables `gasMw`/`aeroMw` since mam4xx is outside this repository); modal
numbers pass through unchanged. -/
def toVmr (mw_air : ℚ) (gasMw aeroMw : Nat → ℚ) (w : Nat → ℚ) (i : Nat) : ℚ :=
  match gasFor i with
  | some g => vmr_from_mmr mw_air (w i) (gasMw g)
  | none =>
    match modeFor i with
    | none => 0
    | some m =>
      match aeroFor i with
      | some aero_id => vmr_from_mmr mw_air (w i) (aeroMw (aerosol_index_for_mode m aero_id))
      | none => w i

/-- `convert_work_arrays_to_mmr`, one entry: the inverse of `toVmr` with
the same molecular-weight lookups. -/
def toMmr (mw_air : ℚ) (gasMw aeroMw : Nat → ℚ) (w : Nat → ℚ) (i : Nat) : ℚ :=
  match gasFor i with
  | some g => mmr_from_vmr mw_air (w i) (gasMw g)
  | none =>
    match modeFor i with
    | none => 0
    | some m =>
      match aeroFor i with
      | some aero_id => mmr_from_vmr mw_air (w i) (aeroMw (aerosol_index_for_mode m aero_id))
      | none => w i

/-- Pointwise update of a two-index view slot. -/
def update2 (f : Nat → Nat → ℚ) (m a : Nat) (v : ℚ) : Nat → Nat → ℚ :=
  fun m' a' => if m' = m ∧ a' = a then v else f m' a'

/-- One iteration of the `transfer_work_arrays_to_prognostics` loop at
constituent `i`: gases write `q[i]` into the gas slot, aerosol species
write `q[i]`/`qqcw[i]` into the interstitial/cloudborne mass slots, modal
numbers write them into the number slots. -/
def transferBackStep (q qqcw : Nat → ℚ) (p : PrognosticsK) (i : Nat) :
    PrognosticsK :=
  match gasFor i with
  | some g => { p with q_gas := Function.update p.q_gas g (q i) }
  | none =>
    match modeFor i with
    | none => p
    | some m =>
      match aeroFor i with
      | some aero_id =>
        let a := aerosol_index_for_mode m aero_id
        { p with q_aero_i := update2 p.q_aero_i m a (q i)
               , q_aero_c := update2 p.q_aero_c m a (qqcw i) }
      | none =>
        { p with n_mode_i := Function.update p.n_mode_i m (q i)
               , n_mode_c := Function.update p.n_mode_c m (qqcw i) }

/-- `transfer_work_arrays_to_prognostics(q, qqcw, progs, k)`: the loop over
all `gas_pcnst()` constituents. -/
def transfer_work_arrays_to_prognostics (q qqcw : Nat → ℚ) (p : PrognosticsK) :
    PrognosticsK :=
  (List.range gas_pcnst).foldl (transferBackStep q qqcw) p

end MamCoupling

/-! ## Theorems -/

open Scream MamCoupling

section ChunkPartition

/-- `my_chunk` in closed form: the even share plus one for the ranks below
the remainder. -/
lemma my_chunk_eq (n R r : Nat) :
    my_chunk n R r = n / R + (if r < n % R then 1 else 0) := by
  have h2 : R * (n / R) + n % R = n := Nat.div_add_mod n R
  have hrem : n - n / R * R = n % R := by rw [Nat.mul_comm]; omega
  simp only [my_chunk]
  rw [hrem]
  split_ifs <;> omega

lemma my_start_succ (n R r : Nat) :
    my_start n R (r + 1) = my_start n R r + my_chunk n R r :=
  Finset.sum_range_succ _ r

lemma my_start_mono (n R : Nat) {r1 r2 : Nat} (h : r1 ≤ r2) :
    my_start n R r1 ≤ my_start n R r2 :=
  Finset.sum_le_sum_of_subset (Finset.range_subset.mpr h)

/-- C7: the per-rank chunk sizes of `set_remap_segments_from_file` sum
exactly to `n_s` (so the fatal `chunk_check == remap_size` consistency
requirement can never fire), differ pairwise by at most 1 with the larger
chunks on the lowest ranks, and the `[my_start, my_start + my_chunk)`
ranges are contiguous and pairwise disjoint. -/
theorem chunk_partition_spec (n_s num_ranks : Nat) (hR : 0 < num_ranks) :
    chunk_check n_s num_ranks = n_s ∧
    (∀ r1 r2, r1 < num_ranks → r2 < num_ranks → r1 ≤ r2 →
      my_chunk n_s num_ranks r2 ≤ my_chunk n_s num_ranks r1 ∧
      my_chunk n_s num_ranks r1 ≤ my_chunk n_s num_ranks r2 + 1) ∧
    (∀ r, my_start n_s num_ranks r + my_chunk n_s num_ranks r
            = my_start n_s num_ranks (r + 1)) ∧
    (∀ r1 r2, r1 < r2 → r2 < num_ranks →
      my_start n_s num_ranks r1 + my_chunk n_s num_ranks r1
        ≤ my_start n_s num_ranks r2) := by
  refine ⟨?_, ?_, ?_, ?_⟩
  · unfold chunk_check
    have hmod : n_s % num_ranks < num_ranks := Nat.mod_lt _ hR
    calc ∑ r ∈ Finset.range num_ranks, my_chunk n_s num_ranks r
        = ∑ r ∈ Finset.range num_ranks,
            (n_s / num_ranks + if r < n_s % num_ranks then 1 else 0) := by
          simp only [my_chunk_eq]
      _ = num_ranks * (n_s / num_ranks)
            + ∑ r ∈ Finset.range num_ranks, (if r < n_s % num_ranks then 1 else 0) := by
          rw [Finset.sum_add_distrib, Finset.sum_const, Finset.card_range, smul_eq_mul]
      _ = num_ranks * (n_s / num_ranks) + n_s % num_ranks := by
          congr 1
          rw [Finset.sum_boole]
          have hfil : (Finset.range num_ranks).filter (fun r => r < n_s % num_ranks)
              = Finset.range (n_s % num_ranks) := by
            ext x
            simp only [Finset.mem_filter, Finset.mem_range]
            omega
          simp [hfil]
      _ = n_s := Nat.div_add_mod n_s num_ranks
  · intro r1 r2 _ _ hle
    rw [my_chunk_eq, my_chunk_eq]
    split_ifs <;> omega
  · intro r
    exact (my_start_succ n_s num_ranks r).symm
  · intro r1 r2 h12 _
    calc my_start n_s num_ranks r1 + my_chunk n_s num_ranks r1
        = my_start n_s num_ranks (r1 + 1) := (my_start_succ n_s num_ranks r1).symm
      _ ≤ my_start n_s num_ranks r2 := my_start_mono n_s num_ranks h12

/-- Witness for C7 at `n_s = 7`, `num_ranks = 3`. -/
theorem chunk_partition_spec_witness :
    0 < 3 ∧
    (chunk_check 7 3 = 7 ∧
     (∀ r1 r2, r1 < 3 → r2 < 3 → r1 ≤ r2 →
       my_chunk 7 3 r2 ≤ my_chunk 7 3 r1 ∧ my_chunk 7 3 r1 ≤ my_chunk 7 3 r2 + 1) ∧
     (∀ r, my_start 7 3 r + my_chunk 7 3 r = my_start 7 3 (r + 1)) ∧
     (∀ r1 r2, r1 < r2 → r2 < 3 →
       my_start 7 3 r1 + my_chunk 7 3 r1 ≤ my_start 7 3 r2)) :=
  ⟨by decide, chunk_partition_spec 7 3 (by decide)⟩

end ChunkPartition

section StepTwoSafety

/-- A rank's chunk of `set_remap_segments_from_file` is nonempty for every
rank exactly when `n_s` is at least the rank count. -/
lemma chunks_all_pos_iff (n_s num_ranks : Nat) (hR : 0 < num_ranks) :
    (∀ r < num_ranks, 0 < my_chunk n_s num_ranks r) ↔ num_ranks ≤ n_s := by
  constructor
  · intro h
    by_contra hlt
    push_neg at hlt
    have h0 : my_chunk n_s num_ranks n_s = 0 := by
      rw [my_chunk_eq]
      have hq : n_s / num_ranks = 0 := Nat.div_eq_of_lt hlt
      have hm : n_s % num_ranks = n_s := Nat.mod_eq_of_lt hlt
      simp [hq, hm]
    have := h n_s hlt
    omega
  · intro h r _
    rw [my_chunk_eq]
    have : 1 ≤ n_s / num_ranks := (Nat.one_le_div_iff hR).mpr h
    omega

/-- C10: step 2 of `set_remap_segments_from_file` reads entry 0 of the
rank's chunk of the `row` array unconditionally, so its chunk indexing is
in bounds on every rank (for every possible chunk content of the computed
length) exactly when every rank's chunk is non-empty, i.e. `n_s ≥` the
number of ranks; for `n_s <` rank count some rank's chunk is empty and the
grouping's first access is out of bounds. -/
theorem step2_chunk_nonempty_precondition (n_s num_ranks : Nat)
    (hR : 0 < num_ranks) :
    (∀ (r : Nat) (rows : List GidType), r < num_ranks →
        rows.length = my_chunk n_s num_ranks r →
        (group_chunks (my_start n_s num_ranks r) rows).isSome) ↔
      num_ranks ≤ n_s := by
  rw [← chunks_all_pos_iff n_s num_ranks hR]
  constructor
  · intro h r hr
    by_contra h0
    push_neg at h0
    have hlen : ([] : List GidType).length = my_chunk n_s num_ranks r := by
      simpa using (Nat.le_zero.mp h0).symm
    have := h r [] hr hlen
    simp [group_chunks] at this
  · intro h r rows hr hlen
    have hpos : 0 < rows.length := hlen ▸ h r hr
    match rows with
    | [] => simp at hpos
    | r0 :: rest => simp [group_chunks]

/-- Witness for C10 at `n_s = 2`, `num_ranks = 2`. -/
theorem step2_chunk_nonempty_precondition_witness :
    0 < 2 ∧
    ((∀ (r : Nat) (rows : List GidType), r < 2 →
        rows.length = my_chunk 2 2 r →
        (group_chunks (my_start 2 2 r) rows).isSome) ↔ 2 ≤ 2) :=
  ⟨by decide, step2_chunk_nonempty_precondition 2 2 (by decide)⟩

end StepTwoSafety

section BufferArena

lemma carve_length (b : Nat) (l : List Nat) : (carve b l).length = l.length := by
  induction l generalizing b with
  | nil => rfl
  | cons sz rest ih => simp [carve, ih]

lemma carve_getD (b : Nat) (l : List Nat) (i : Nat) (h : i < l.length) :
    (carve b l).getD i (0, 0) = (b + (l.take i).sum, l.getD i 0) := by
  induction l generalizing b i with
  | nil => simp at h
  | cons sz rest ih =>
    match i with
    | 0 => simp [carve]
    | j + 1 =>
      have hj : j < rest.length := by simpa using h
      simp only [carve, List.getD_cons_succ, List.take_succ_cons, List.sum_cons]
      rw [ih (b + sz) j hj]
      congr 1
      omega

lemma sum_take_mono (l : List Nat) {i j : Nat} (h : i ≤ j) :
    (l.take i).sum ≤ (l.take j).sum := by
  have h1 : l.take i = (l.take j).take i := by
    rw [List.take_take, Nat.min_eq_left h]
  rw [h1]
  have h2 := List.sum_take_add_sum_drop (l.take j) i
  omega

/-- C9: `init_buffer` binds the `num_2d_mid` midpoint views and the
interface view to consecutive, pairwise-disjoint sub-ranges of the single
arena starting at offset 0, and the number of bytes it returns equals
`buffer_size(ncol, nlev)`. -/
theorem init_buffer_arena_spec (ncol nlev : Nat) (hc : 0 < ncol) (hl : 0 < nlev) :
    (init_buffer ncol nlev).1.length = num_2d_mid + num_2d_iface ∧
    ((init_buffer ncol nlev).1.getD 0 (0, 0)).1 = 0 ∧
    (∀ i, i + 1 < (init_buffer ncol nlev).1.length →
      ((init_buffer ncol nlev).1.getD (i + 1) (0, 0)).1
        = ((init_buffer ncol nlev).1.getD i (0, 0)).1
          + ((init_buffer ncol nlev).1.getD i (0, 0)).2) ∧
    (∀ i j, i < j → j < (init_buffer ncol nlev).1.length →
      ((init_buffer ncol nlev).1.getD i (0, 0)).1
        + ((init_buffer ncol nlev).1.getD i (0, 0)).2
        ≤ ((init_buffer ncol nlev).1.getD j (0, 0)).1) ∧
    (init_buffer ncol nlev).2 = buffer_size ncol nlev := by
  have hlen : (List.replicate num_2d_mid (ncol * nlev)
      ++ List.replicate num_2d_iface (ncol * (nlev + 1))).length
      = num_2d_mid + num_2d_iface := by
    simp
  refine ⟨?_, ?_, ?_, ?_, ?_⟩
  · simp only [init_buffer, carve_length]
    exact hlen
  · rw [show (init_buffer ncol nlev).1 = carve 0 _ from rfl,
      carve_getD 0 _ 0 (by rw [hlen]; simp [num_2d_mid, num_2d_iface])]
    simp
  · intro i hi
    simp only [init_buffer, carve_length] at hi ⊢
    have hi1 : i + 1 < (List.replicate num_2d_mid (ncol * nlev)
        ++ List.replicate num_2d_iface (ncol * (nlev + 1))).length := hi
    have hi0 : i < (List.replicate num_2d_mid (ncol * nlev)
        ++ List.replicate num_2d_iface (ncol * (nlev + 1))).length := by omega
    rw [carve_getD 0 _ (i + 1) hi1, carve_getD 0 _ i hi0]
    simp only
    rw [List.sum_take_succ _ i hi0]
    have : (List.replicate num_2d_mid (ncol * nlev)
        ++ List.replicate num_2d_iface (ncol * (nlev + 1))).getD i 0
        = (List.replicate num_2d_mid (ncol * nlev)
        ++ List.replicate num_2d_iface (ncol * (nlev + 1)))[i] := List.getD_eq_getElem _ _ hi0
    omega
  · intro i j hij hj
    simp only [init_buffer, carve_length] at hj ⊢
    have hj' : j < (List.replicate num_2d_mid (ncol * nlev)
        ++ List.replicate num_2d_iface (ncol * (nlev + 1))).length := hj
    have hi' : i < (List.replicate num_2d_mid (ncol * nlev)
        ++ List.replicate num_2d_iface (ncol * (nlev + 1))).length := by omega
    rw [carve_getD 0 _ i hi', carve_getD 0 _ j hj']
    simp only
    have hstep : (List.replicate num_2d_mid (ncol * nlev)
          ++ List.replicate num_2d_iface (ncol * (nlev + 1))).getD i 0
          = (List.replicate num_2d_mid (ncol * nlev)
          ++ List.replicate num_2d_iface (ncol * (nlev + 1)))[i] := List.getD_eq_getElem _ _ hi'
    have hsucc := List.sum_take_succ (List.replicate num_2d_mid (ncol * nlev)
        ++ List.replicate num_2d_iface (ncol * (nlev + 1))) i hi'
    have hmono := sum_take_mono (List.replicate num_2d_mid (ncol * nlev)
        ++ List.replicate num_2d_iface (ncol * (nlev + 1))) (show i + 1 ≤ j by omega)
    omega
  · simp only [init_buffer, buffer_size]
    simp [Nat.mul_comm, Nat.mul_add, Nat.add_mul, Nat.mul_assoc, sizeof_real]

/-- Witness for C9 at `ncol = 2`, `nlev = 3`. -/
theorem init_buffer_arena_spec_witness :
    (0 < 2 ∧ 0 < 3) ∧
    ((init_buffer 2 3).1.length = num_2d_mid + num_2d_iface ∧
     ((init_buffer 2 3).1.getD 0 (0, 0)).1 = 0 ∧
     (∀ i, i + 1 < (init_buffer 2 3).1.length →
       ((init_buffer 2 3).1.getD (i + 1) (0, 0)).1
         = ((init_buffer 2 3).1.getD i (0, 0)).1 + ((init_buffer 2 3).1.getD i (0, 0)).2) ∧
     (∀ i j, i < j → j < (init_buffer 2 3).1.length →
       ((init_buffer 2 3).1.getD i (0, 0)).1 + ((init_buffer 2 3).1.getD i (0, 0)).2
         ≤ ((init_buffer 2 3).1.getD j (0, 0)).1) ∧
     (init_buffer 2 3).2 = buffer_size 2 3) :=
  ⟨⟨by decide, by decide⟩, init_buffer_arena_spec 2 3 (by decide) (by decide)⟩

end BufferArena

section SegmentCheck

/-- Reading the first `l.length` entries of `l` with a default reproduces `l`. -/
lemma range_map_getD_eq (l : List ℚ) :
    (List.range l.length).map (fun i => l.getD i 0) = l := by
  apply List.ext_getElem
  · simp
  · intro i h1 h2
    simp only [List.getElem_map, List.getElem_range]
    exact List.getD_eq_getElem l 0 h2

/-- C6: for a `GSSegment` whose three arrays have the declared length,
`check()` succeeds and returns `true` exactly when the sum of the weights
differs from `1.0` by strictly less than `100` times the machine epsilon of
`Real`; in particular it returns `false` for weights summing to `0.5`
(e.g. `{0.25, 0.25}`) and `true` for weights `{0.25, 0.25, 0.5}`. -/
theorem gssegment_check_weight_tolerance (s : GSSegment) (h : s.wf) :
    (s.check = some true ↔
      |s.m_weights.sum - 1| < GSSegment.machineEps * 100) ∧
    (GSSegment.mkFrom 0 2 [1, 2] [1/4, 1/4]).check = some false ∧
    (GSSegment.mkFrom 0 3 [1, 2, 3] [1/4, 1/4, 1/2]).check = some true := by
  obtain ⟨h1, h2, h3⟩ := h
  refine ⟨?_, ?_, ?_⟩
  · rw [GSSegment.check]
    rw [if_pos h1, if_pos h2, if_pos h3]
    have hsum : ((List.range s.m_length).map (fun i => s.m_weights.getD i 0)).sum
        = s.m_weights.sum := by
      rw [← h2, range_map_getD_eq]
    simp only [hsum]
    constructor
    · intro hc
      by_contra hge
      rw [if_pos (not_lt.mp hge)] at hc
      exact Bool.false_ne_true (Option.some.inj hc)
    · intro hlt
      rw [if_neg (not_le.mpr hlt)]
  · rw [GSSegment.check]
    norm_num [GSSegment.mkFrom, GSSegment.machineEps, List.range_succ, abs_sub_comm,
      abs_of_nonneg]
  · rw [GSSegment.check]
    norm_num [GSSegment.mkFrom, GSSegment.machineEps, List.range_succ, abs_sub_comm,
      abs_of_nonneg]

/-- Witness for C6: a concrete well-formed segment with weights `{1}`. -/
theorem gssegment_check_weight_tolerance_witness :
    (GSSegment.mkFrom 7 1 [0] [1]).wf ∧
    ((GSSegment.mkFrom 7 1 [0] [1]).check = some true ↔
      |(GSSegment.mkFrom 7 1 [0] [1]).m_weights.sum - 1|
        < GSSegment.machineEps * 100) ∧
    (GSSegment.mkFrom 0 2 [1, 2] [1/4, 1/4]).check = some false ∧
    (GSSegment.mkFrom 0 3 [1, 2, 3] [1/4, 1/4, 1/2]).check = some true :=
  ⟨by decide, gssegment_check_weight_tolerance (GSSegment.mkFrom 7 1 [0] [1]) (by decide)⟩

end SegmentCheck

section FieldNames

/-- C8: for any mode and species index, the interstitial (resp. cloudborne)
mass-mixing-ratio field-name synthesizer returns
`"<species>_a<mode>"` (resp. `"<species>_c<mode>"`) when the mode-species
registry declares the pair valid, returns the empty string without raising
any error when it does not, and a repeated call with the same arguments
(against the updated static name buffer) returns the identical string. -/
theorem aero_mmr_field_name_spec (mode species : Nat)
    (hm : mode < num_aero_modes) (hs : species < num_aero_species) :
    (∀ aero_id, mode_aero_species mode species = some aero_id →
      (int_aero_mmr_field_name emptyCache mode species).1
        = aero_species_name aero_id ++ "_a" ++ aero_mode_name mode ∧
      (cld_aero_mmr_field_name emptyCache mode species).1
        = aero_species_name aero_id ++ "_c" ++ aero_mode_name mode) ∧
    (mode_aero_species mode species = none →
      (int_aero_mmr_field_name emptyCache mode species).1 = blank ∧
      (cld_aero_mmr_field_name emptyCache mode species).1 = blank) ∧
    ((int_aero_mmr_field_name
        (int_aero_mmr_field_name emptyCache mode species).2 mode species).1
      = (int_aero_mmr_field_name emptyCache mode species).1) ∧
    ((cld_aero_mmr_field_name
        (cld_aero_mmr_field_name emptyCache mode species).2 mode species).1
      = (cld_aero_mmr_field_name emptyCache mode species).1) := by
  have hempty : emptyCache mode species = blank := rfl
  refine ⟨?_, ?_, ?_, ?_⟩
  · intro aero_id hvalid
    constructor
    · rw [int_aero_mmr_field_name, if_pos hempty, hvalid]
    · rw [cld_aero_mmr_field_name, if_pos hempty, hvalid]
  · intro hnone
    constructor
    · rw [int_aero_mmr_field_name, if_pos hempty, hnone]
    · rw [cld_aero_mmr_field_name, if_pos hempty, hnone]
  · cases hreg : mode_aero_species mode species with
    | none =>
      have hinner : int_aero_mmr_field_name emptyCache mode species
          = (blank, emptyCache) := by
        rw [int_aero_mmr_field_name, if_pos hempty, hreg]
      rw [hinner]
      show (int_aero_mmr_field_name emptyCache mode species).1 = blank
      rw [hinner]
    | some aero_id =>
      have hinner : int_aero_mmr_field_name emptyCache mode species
          = (aero_species_name aero_id ++ "_a" ++ aero_mode_name mode,
             cacheWrite emptyCache mode species
               (aero_species_name aero_id ++ "_a" ++ aero_mode_name mode)) := by
        rw [int_aero_mmr_field_name, if_pos hempty, hreg]
      rw [hinner]
      show (int_aero_mmr_field_name
          (cacheWrite emptyCache mode species
            (aero_species_name aero_id ++ "_a" ++ aero_mode_name mode)) mode species).1
        = aero_species_name aero_id ++ "_a" ++ aero_mode_name mode
      rw [int_aero_mmr_field_name]
      have hslot : cacheWrite emptyCache mode species
          (aero_species_name aero_id ++ "_a" ++ aero_mode_name mode) mode species
          = aero_species_name aero_id ++ "_a" ++ aero_mode_name mode := by
        simp [cacheWrite]
      by_cases hb : aero_species_name aero_id ++ "_a" ++ aero_mode_name mode = blank
      · rw [if_pos (by rw [hslot]; exact hb), hreg]
      · rw [if_neg (by rw [hslot]; exact hb), hslot]
  · cases hreg : mode_aero_species mode species with
    | none =>
      have hinner : cld_aero_mmr_field_name emptyCache mode species
          = (blank, emptyCache) := by
        rw [cld_aero_mmr_field_name, if_pos hempty, hreg]
      rw [hinner]
      show (cld_aero_mmr_field_name emptyCache mode species).1 = blank
      rw [hinner]
    | some aero_id =>
      have hinner : cld_aero_mmr_field_name emptyCache mode species
          = (aero_species_name aero_id ++ "_c" ++ aero_mode_name mode,
             cacheWrite emptyCache mode species
               (aero_species_name aero_id ++ "_c" ++ aero_mode_name mode)) := by
        rw [cld_aero_mmr_field_name, if_pos hempty, hreg]
      rw [hinner]
      show (cld_aero_mmr_field_name
          (cacheWrite emptyCache mode species
            (aero_species_name aero_id ++ "_c" ++ aero_mode_name mode)) mode species).1
        = aero_species_name aero_id ++ "_c" ++ aero_mode_name mode
      rw [cld_aero_mmr_field_name]
      have hslot : cacheWrite emptyCache mode species
          (aero_species_name aero_id ++ "_c" ++ aero_mode_name mode) mode species
          = aero_species_name aero_id ++ "_c" ++ aero_mode_name mode := by
        simp [cacheWrite]
      by_cases hb : aero_species_name aero_id ++ "_c" ++ aero_mode_name mode = blank
      · rw [if_pos (by rw [hslot]; exact hb), hreg]
      · rw [if_neg (by rw [hslot]; exact hb), hslot]

/-- Witness for C8 at `mode = 1` (aitken), `species = 2` (whose registry
entry is `NaCl`, so the names are `"nacl_a2"` / `"nacl_c2"`). -/
theorem aero_mmr_field_name_spec_witness :
    (1 < num_aero_modes ∧ 2 < num_aero_species) ∧
    ((int_aero_mmr_field_name emptyCache 1 2).1 = "nacl_a2" ∧
     (cld_aero_mmr_field_name emptyCache 1 2).1 = "nacl_c2") := by
  have h := aero_mmr_field_name_spec 1 2 (by decide) (by decide)
  obtain ⟨hvalid, _, _, _⟩ := h
  have h4 := hvalid 4 (by decide)
  exact ⟨⟨by decide, by decide⟩, by simpa using h4⟩

end FieldNames

section WetDryRoundtrip

/-- The wet→dry→wet conversion identity: converting a wet value with the
wet water-vapor mixing ratio `qv`, then converting back with the dry
water-vapor mixing ratio `qv / (1 - qv)` obtained from the same `qv`,
recovers the original value (exact in real arithmetic, `qv ≠ 1`). -/
lemma drymmr_wetmmr_roundtrip (x qv : ℚ) (h : qv ≠ 1) :
    calculate_wetmmr_from_drymmr (calculate_drymmr_from_wetmmr x qv)
      (calculate_drymmr_from_wetmmr qv qv) = x := by
  unfold calculate_wetmmr_from_drymmr calculate_drymmr_from_wetmmr
  have h1 : (1 : ℚ) - qv ≠ 0 := fun hc => h (by linarith)
  have h2 : 1 + qv / (1 - qv) = 1 / (1 - qv) := by
    field_simp
  rw [h2]
  field_simp

/-- C2: at any (column, level), `compute_dry_mixing_ratios` with the wet
water-vapor mixing ratio `qv` as the factor, followed by
`compute_wet_mixing_ratios` with the resulting dry water-vapor mixing
ratio (`calculate_drymmr_from_wetmmr qv qv`, as produced by the atmosphere
overload) as the factor, recovers the original wet value of every
populated aerosol field exactly (real arithmetic, `qv ≠ 1`). -/
theorem dry_wet_mixing_ratio_roundtrip (pat : AeroPattern) (qv : ℚ)
    (hqv : qv ≠ 1) (wet dry0 wet0 : AeroStateK) :
    let dry := compute_dry_mixing_ratios pat qv wet dry0
    let wet1 := compute_wet_mixing_ratios pat
      (calculate_drymmr_from_wetmmr qv qv) dry wet0
    (∀ m, m < num_aero_modes → wet1.int_aero_nmr m = wet.int_aero_nmr m) ∧
    (∀ m, m < num_aero_modes → pat.cldNmr m →
      wet1.cld_aero_nmr m = wet.cld_aero_nmr m) ∧
    (∀ m a, m < num_aero_modes → a < num_aero_species → pat.intMmr m a →
      wet1.int_aero_mmr m a = wet.int_aero_mmr m a) ∧
    (∀ m a, m < num_aero_modes → a < num_aero_species → pat.cldMmr m a →
      wet1.cld_aero_mmr m a = wet.cld_aero_mmr m a) ∧
    (∀ g, g < num_aero_gases → wet1.gas_mmr g = wet.gas_mmr g) := by
  refine ⟨?_, ?_, ?_, ?_, ?_⟩
  · intro m hm
    simp only [compute_wet_mixing_ratios, compute_dry_mixing_ratios, if_pos hm]
    exact drymmr_wetmmr_roundtrip _ qv hqv
  · intro m hm hp
    simp only [compute_wet_mixing_ratios, compute_dry_mixing_ratios,
      if_pos (And.intro hm hp)]
    exact drymmr_wetmmr_roundtrip _ qv hqv
  · intro m a hm ha hp
    simp only [compute_wet_mixing_ratios, compute_dry_mixing_ratios,
      if_pos (And.intro hm (And.intro ha hp))]
    exact drymmr_wetmmr_roundtrip _ qv hqv
  · intro m a hm ha hp
    simp only [compute_wet_mixing_ratios, compute_dry_mixing_ratios,
      if_pos (And.intro hm (And.intro ha hp))]
    exact drymmr_wetmmr_roundtrip _ qv hqv
  · intro g hg
    simp only [compute_wet_mixing_ratios, compute_dry_mixing_ratios, if_pos hg]
    exact drymmr_wetmmr_roundtrip _ qv hqv

/-- Witness for C2: a fully populated pattern, `qv = 1/100`, constant
states. -/
theorem dry_wet_mixing_ratio_roundtrip_witness :
    (1 : ℚ) / 100 ≠ 1 ∧
    (let pat : AeroPattern :=
      { cldNmr := fun _ => true, intMmr := fun _ _ => true, cldMmr := fun _ _ => true }
     let wet : AeroStateK :=
      { int_aero_nmr := fun _ => 2, cld_aero_nmr := fun _ => 3
      , int_aero_mmr := fun _ _ => 5, cld_aero_mmr := fun _ _ => 7
      , gas_mmr := fun _ => 11 }
     let dry := compute_dry_mixing_ratios pat (1/100) wet wet
     let wet1 := compute_wet_mixing_ratios pat
       (calculate_drymmr_from_wetmmr (1/100) (1/100)) dry wet
     (∀ m, m < num_aero_modes → wet1.int_aero_nmr m = wet.int_aero_nmr m) ∧
     (∀ m, m < num_aero_modes → pat.cldNmr m →
       wet1.cld_aero_nmr m = wet.cld_aero_nmr m) ∧
     (∀ m a, m < num_aero_modes → a < num_aero_species → pat.intMmr m a →
       wet1.int_aero_mmr m a = wet.int_aero_mmr m a) ∧
     (∀ m a, m < num_aero_modes → a < num_aero_species → pat.cldMmr m a →
       wet1.cld_aero_mmr m a = wet.cld_aero_mmr m a) ∧
     (∀ g, g < num_aero_gases → wet1.gas_mmr g = wet.gas_mmr g)) :=
  ⟨by norm_num,
   dry_wet_mixing_ratio_roundtrip
     { cldNmr := fun _ => true, intMmr := fun _ _ => true, cldMmr := fun _ _ => true }
     (1/100) (by norm_num)
     { int_aero_nmr := fun _ => 2, cld_aero_nmr := fun _ => 3
     , int_aero_mmr := fun _ _ => 5, cld_aero_mmr := fun _ _ => 7
     , gas_mmr := fun _ => 11 }
     { int_aero_nmr := fun _ => 2, cld_aero_nmr := fun _ => 3
     , int_aero_mmr := fun _ _ => 5, cld_aero_mmr := fun _ _ => 7
     , gas_mmr := fun _ => 11 }
     { int_aero_nmr := fun _ => 2, cld_aero_nmr := fun _ => 3
     , int_aero_mmr := fun _ _ => 5, cld_aero_mmr := fun _ _ => 7
     , gas_mmr := fun _ => 11 }⟩

end WetDryRoundtrip

section WorkArrayRoundtrip

/-- The mmr→vmr→mmr conversion identity for one species weight. -/
lemma mmr_vmr_roundtrip (mw_air x mw : ℚ) (hair : mw_air ≠ 0) (hmw : mw ≠ 0) :
    mmr_from_vmr mw_air (vmr_from_mmr mw_air x mw) mw = x := by
  unfold mmr_from_vmr vmr_from_mmr
  field_simp

/-- `convert_work_arrays_to_vmr` followed by `convert_work_arrays_to_mmr`
is the identity on every constituent entry that the tables classify
(as a gas or by a mode). -/
lemma work_entry_roundtrip (mw_air : ℚ) (gasMw aeroMw : Nat → ℚ)
    (hair : mw_air ≠ 0) (hg : ∀ g, gasMw g ≠ 0) (ha : ∀ a, aeroMw a ≠ 0)
    (w : Nat → ℚ) (i : Nat)
    (hi : (gasFor i).isSome ∨ (modeFor i).isSome) :
    toMmr mw_air gasMw aeroMw (toVmr mw_air gasMw aeroMw w) i = w i := by
  cases hgas : gasFor i with
  | some g =>
    simp only [toMmr, toVmr, hgas]
    exact mmr_vmr_roundtrip mw_air (w i) (gasMw g) hair (hg g)
  | none =>
    cases hmode : modeFor i with
    | none => simp [hgas, hmode] at hi
    | some m =>
      cases haero : aeroFor i with
      | some aero_id =>
        simp only [toMmr, toVmr, hgas, hmode, haero]
        exact mmr_vmr_roundtrip mw_air (w i) _ hair (ha _)
      | none => simp only [toMmr, toVmr, hgas, hmode, haero]

lemma update2_self (f : Nat → Nat → ℚ) (m a : Nat) :
    update2 f m a (f m a) = f := by
  funext m' a'
  unfold update2
  split_ifs with h
  · rw [h.1, h.2]
  · rfl

lemma foldl_fixed {α β : Type} (f : α → β → α) (a : α) (l : List β)
    (h : ∀ x ∈ l, f a x = a) : l.foldl f a = a := by
  induction l with
  | nil => rfl
  | cons y ys ih =>
    rw [List.foldl_cons, h y (List.mem_cons_self y ys)]
    exact ih (fun x hx => h x (List.mem_cons_of_mem y hx))

/-- Every constituent index of the transfer tables is classified as a gas
or carries a mode. -/
lemma cnst_classified : ∀ i ∈ List.range gas_pcnst,
    (gasFor i).isSome ∨ (modeFor i).isSome := by
  decide

/-- C3: for any fully populated `Prognostics` level slice and any nonzero
molecular weights, `transfer_prognostics_to_work_arrays` (the `q`/`qqcw`
entries `workQ`/`workQqcw`), then `convert_work_arrays_to_vmr`, then
`convert_work_arrays_to_mmr`, then `transfer_work_arrays_to_prognostics`
restores every structured prognostic value (gases, interstitial and
cloudborne aerosol masses, modal numbers) exactly; and modal-number
entries pass through the vmr conversion unchanged. -/
theorem work_array_roundtrip (mw_air : ℚ) (gasMw aeroMw : Nat → ℚ)
    (hair : mw_air ≠ 0) (hg : ∀ g, gasMw g ≠ 0) (ha : ∀ a, aeroMw a ≠ 0)
    (p : PrognosticsK) :
    transfer_work_arrays_to_prognostics
      (toMmr mw_air gasMw aeroMw (toVmr mw_air gasMw aeroMw (workQ p)))
      (toMmr mw_air gasMw aeroMw (toVmr mw_air gasMw aeroMw (workQqcw p)))
      p = p ∧
    (∀ (w : Nat → ℚ) (i m : Nat), gasFor i = none → aeroFor i = none →
      modeFor i = some m → toVmr mw_air gasMw aeroMw w i = w i) := by
  constructor
  · unfold transfer_work_arrays_to_prognostics
    apply foldl_fixed
    intro i hi
    have hclass := cnst_classified i hi
    have hq := work_entry_roundtrip mw_air gasMw aeroMw hair hg ha (workQ p) i hclass
    have hqq := work_entry_roundtrip mw_air gasMw aeroMw hair hg ha (workQqcw p) i hclass
    cases hgas : gasFor i with
    | some g =>
      simp only [transferBackStep, hgas, hq]
      have : workQ p i = p.q_gas g := by simp only [workQ, hgas]
      rw [this, Function.update_eq_self]
    | none =>
      cases hmode : modeFor i with
      | none => simp only [transferBackStep, hgas, hmode]
      | some m =>
        cases haero : aeroFor i with
        | some aero_id =>
          simp only [transferBackStep, hgas, hmode, haero, hq, hqq]
          have h1 : workQ p i = p.q_aero_i m (aerosol_index_for_mode m aero_id) := by
            simp only [workQ, hgas, hmode, haero]
          have h2 : workQqcw p i = p.q_aero_c m (aerosol_index_for_mode m aero_id) := by
            simp only [workQqcw, hgas, hmode, haero]
          rw [h1, h2, update2_self, update2_self]
        | none =>
          simp only [transferBackStep, hgas, hmode, haero, hq, hqq]
          have h1 : workQ p i = p.n_mode_i m := by
            simp only [workQ, hgas, hmode, haero]
          have h2 : workQqcw p i = p.n_mode_c m := by
            simp only [workQqcw, hgas, hmode, haero]
          rw [h1, h2, Function.update_eq_self, Function.update_eq_self]
  · intro w i m hgas haero hmode
    simp only [toVmr, hgas, hmode, haero]

/-- Witness for C3: unit molecular weights, a constant prognostics slice. -/
theorem work_array_roundtrip_witness :
    ((1 : ℚ) ≠ 0 ∧ (∀ g : Nat, (1 : ℚ) ≠ 0) ∧ (∀ a : Nat, (1 : ℚ) ≠ 0)) ∧
    (let p : PrognosticsK :=
      { n_mode_i := fun _ => 2, n_mode_c := fun _ => 3
      , q_aero_i := fun _ _ => 5, q_aero_c := fun _ _ => 7
      , q_gas := fun _ => 11 }
     transfer_work_arrays_to_prognostics
       (toMmr 1 (fun _ => 1) (fun _ => 1) (toVmr 1 (fun _ => 1) (fun _ => 1) (workQ p)))
       (toMmr 1 (fun _ => 1) (fun _ => 1) (toVmr 1 (fun _ => 1) (fun _ => 1) (workQqcw p)))
       p = p ∧
     (∀ (w : Nat → ℚ) (i m : Nat), gasFor i = none → aeroFor i = none →
       modeFor i = some m → toVmr 1 (fun _ => 1) (fun _ => 1) w i = w i)) :=
  ⟨⟨one_ne_zero, fun _ => one_ne_zero, fun _ => one_ne_zero⟩,
   work_array_roundtrip 1 (fun _ => 1) (fun _ => 1) one_ne_zero
     (fun _ => one_ne_zero) (fun _ => one_ne_zero)
     { n_mode_i := fun _ => 2, n_mode_c := fun _ => 3
     , q_aero_i := fun _ _ => 5, q_aero_c := fun _ _ => 7
     , q_gas := fun _ => 11 }⟩

end WorkArrayRoundtrip

section ApplyRemap

lemma getD_set_ne (l : List ℚ) (m j : Nat) (v : ℚ) (h : m ≠ j) :
    (l.set m v).getD j 0 = l.getD j 0 := by
  simp [List.getD, List.getElem?_set_ne h]

lemma getD_set_self (l : List ℚ) (m : Nat) (v : ℚ) (h : m < l.length) :
    (l.set m v).getD m 0 = v := by
  simp [List.getD, List.getElem?_set_self, h]

lemma list_range_map_sum (n : Nat) (f : Nat → ℚ) :
    ((List.range n).map f).sum = ∑ i ∈ Finset.range n, f i := by
  induction n with
  | zero => simp
  | succ k ih => simp [List.range_succ, Finset.sum_range_succ, ih]

/-- `apply_segment` as a `Finset` sum. -/
lemma apply_segment_eq_sum (s : GSSegment) (src : List ℚ) :
    s.apply_segment src
      = ∑ i ∈ Finset.range s.m_length,
          src.getD (s.m_source_idx.getD i 0) 0 * s.m_weights.getD i 0 := by
  unfold GSSegment.apply_segment
  exact list_range_map_sum _ _

/-- The segment loop of `apply_remap` preserves the target length. -/
lemma remap_foldl_length (segs : List GSSegment) (src tgt : List ℚ) :
    (segs.foldl (fun acc seg => acc.set seg.m_dof_idx (seg.apply_segment src)) tgt).length
      = tgt.length := by
  induction segs generalizing tgt with
  | nil => rfl
  | cons s rest ih => simp [List.foldl_cons, ih]

/-- Entries whose index is no segment's `m_dof_idx` are untouched by the
segment loop of `apply_remap`. -/
lemma remap_foldl_frame (segs : List GSSegment) (src tgt : List ℚ) (j : Nat)
    (h : ∀ seg ∈ segs, seg.m_dof_idx ≠ j) :
    (segs.foldl (fun acc seg => acc.set seg.m_dof_idx (seg.apply_segment src)) tgt).getD j 0
      = tgt.getD j 0 := by
  induction segs generalizing tgt with
  | nil => rfl
  | cons s rest ih =>
    rw [List.foldl_cons]
    rw [ih _ (fun seg hs => h seg (List.mem_cons_of_mem s hs))]
    exact getD_set_ne _ _ _ _ (h s (List.mem_cons_self s rest))

/-- With pairwise-distinct `m_dof_idx`, the segment loop leaves each
segment's weighted sum at its own target index. -/
lemma remap_foldl_written (segs : List GSSegment) (src tgt : List ℚ)
    (hnd : (segs.map (fun s => s.m_dof_idx)).Nodup) :
    ∀ seg ∈ segs, seg.m_dof_idx < tgt.length →
      (segs.foldl (fun acc seg => acc.set seg.m_dof_idx (seg.apply_segment src)) tgt).getD
          seg.m_dof_idx 0
        = seg.apply_segment src := by
  induction segs generalizing tgt with
  | nil => intro seg hs; simp at hs
  | cons s rest ih =>
    intro seg hs hlt
    rw [List.map_cons, List.nodup_cons] at hnd
    rcases List.mem_cons.mp hs with rfl | hmem
    · rw [List.foldl_cons]
      rw [remap_foldl_frame rest src _ seg.m_dof_idx
        (fun s2 hs2 h2 => hnd.1 (h2 ▸ List.mem_map_of_mem (fun s3 => s3.m_dof_idx) hs2))]
      exact getD_set_self tgt seg.m_dof_idx _ hlt
    · rw [List.foldl_cons]
      exact ih _ hnd.2 seg hmem (by rw [List.length_set]; exact hlt)

/-- C1: `apply_remap` writes into the target only at the `m_dof_idx` of the
local segments — each such entry receiving the segment's weighted sum over
the source data — every other entry of the target is left unchanged (and
the length is preserved); on a rank owning zero local DOFs it returns with
the entire target buffer untouched. -/
theorem apply_remap_writes_only_segment_targets (m : GSMap) (src tgt : List ℚ) :
    (m.m_num_dofs = 0 → m.apply_remap src tgt = tgt) ∧
    (m.apply_remap src tgt).length = tgt.length ∧
    (∀ j, (∀ seg ∈ m.m_map_segments, seg.m_dof_idx ≠ j) →
      (m.apply_remap src tgt).getD j 0 = tgt.getD j 0) ∧
    ((m.m_map_segments.map (fun s => s.m_dof_idx)).Nodup → m.m_num_dofs ≠ 0 →
      ∀ seg ∈ m.m_map_segments, seg.m_dof_idx < tgt.length →
        (m.apply_remap src tgt).getD seg.m_dof_idx 0
          = ∑ i ∈ Finset.range seg.m_length,
              src.getD (seg.m_source_idx.getD i 0) 0 * seg.m_weights.getD i 0) := by
  refine ⟨?_, ?_, ?_, ?_⟩
  · intro h0
    unfold GSMap.apply_remap
    rw [if_pos h0]
  · unfold GSMap.apply_remap
    split
    · rfl
    · exact remap_foldl_length _ _ _
  · intro j hj
    unfold GSMap.apply_remap
    split
    · rfl
    · exact remap_foldl_frame _ _ _ _ hj
  · intro hnd h0 seg hs hlt
    unfold GSMap.apply_remap
    rw [if_neg h0, ← apply_segment_eq_sum]
    exact remap_foldl_written _ src tgt hnd seg hs hlt

/-- Concrete data for the C1 witness: one resolved segment targeting local
dof index 1 with weights `{1/2, 1/2}`. -/
def sampleSeg : GSSegment :=
  { m_dof := 5, m_length := 2, m_source_dofs := [0, 1]
  , m_source_idx := [0, 1], m_weights := [1/2, 1/2], m_dof_idx := 1 }

/-- A resolved one-segment map owning two local dofs. -/
def sampleMap : GSMap :=
  { m_dofs_gids := [9, 5], m_num_dofs := 2, m_map_segments := [sampleSeg]
  , m_num_segments := 1, m_unique_dofs := [0, 1], m_unique_set := true
  , m_dofs_set := true }

/-- Witness for C1 on `sampleMap`: the targeted entry receives the weighted
sum, the other entries and the length are untouched. -/
theorem apply_remap_writes_only_segment_targets_witness :
    (sampleMap.apply_remap [10, 20] [100, 200, 300]).getD 1 0
      = ∑ i ∈ Finset.range sampleSeg.m_length,
          ([10, 20] : List ℚ).getD (sampleSeg.m_source_idx.getD i 0) 0
            * sampleSeg.m_weights.getD i 0 ∧
    (sampleMap.apply_remap [10, 20] [100, 200, 300]).getD 0 0 = 100 ∧
    (sampleMap.apply_remap [10, 20] [100, 200, 300]).length = 3 := by
  have h := apply_remap_writes_only_segment_targets sampleMap [10, 20] [100, 200, 300]
  obtain ⟨h0, hlen, hframe, hw⟩ := h
  refine ⟨?_, ?_, by simpa using hlen⟩
  · have := hw (by decide) (by decide) sampleSeg (by simp [sampleMap]) (by decide)
    simpa [sampleMap] using this
  · have := hframe 0 ?_
    · simpa using this
    · intro seg hs
      have : seg = sampleSeg := by simpa [sampleMap] using hs
      rw [this]
      decide

end ApplyRemap

section UniqueSourceDofs

/-- Membership after the push-if-absent loop: exactly the old elements and
the scanned ones. -/
lemma pushNew_mem_iff (l acc : List GidType) (d : GidType) :
    (d ∈ l.foldl (fun acc2 x => if x ∈ acc2 then acc2 else acc2 ++ [x]) acc)
      ↔ d ∈ acc ∨ d ∈ l := by
  induction l generalizing acc with
  | nil => simp
  | cons a t ih =>
    rw [List.foldl_cons]
    by_cases ha : a ∈ acc
    · rw [if_pos ha, ih]
      constructor
      · rintro (h | h)
        exacts [Or.inl h, Or.inr (List.mem_cons_of_mem a h)]
      · rintro (h | h)
        · exact Or.inl h
        · rcases List.mem_cons.mp h with rfl | h2
          exacts [Or.inl ha, Or.inr h2]
    · rw [if_neg ha, ih]
      simp only [List.mem_append, List.mem_singleton, List.mem_cons]
      tauto

/-- The push-if-absent loop preserves `Nodup`. -/
lemma pushNew_nodup (l : List GidType) : ∀ acc : List GidType, acc.Nodup →
    (l.foldl (fun acc2 x => if x ∈ acc2 then acc2 else acc2 ++ [x]) acc).Nodup := by
  induction l with
  | nil => intro acc h; exact h
  | cons a t ih =>
    intro acc h
    rw [List.foldl_cons]
    by_cases ha : a ∈ acc
    · rw [if_pos ha]; exact ih acc h
    · rw [if_neg ha]
      refine ih _ ?_
      simp [List.nodup_append, h, ha]

lemma collectUnique_go_mem_iff (segs : List GSSegment) (d : GidType) :
    ∀ acc : List GidType,
      (d ∈ segs.foldl (fun acc seg =>
        (GSMap.segSrcRead seg).foldl
          (fun acc2 x => if x ∈ acc2 then acc2 else acc2 ++ [x]) acc) acc)
      ↔ d ∈ acc ∨ ∃ seg ∈ segs, d ∈ GSMap.segSrcRead seg := by
  induction segs with
  | nil => intro acc; simp
  | cons s t ih =>
    intro acc
    rw [List.foldl_cons, ih, pushNew_mem_iff]
    constructor
    · rintro ((h | h) | ⟨seg, hs, hd⟩)
      exacts [Or.inl h, Or.inr ⟨s, List.mem_cons_self s t, h⟩,
        Or.inr ⟨seg, List.mem_cons_of_mem s hs, hd⟩]
    · rintro (h | ⟨seg, hs, hd⟩)
      · exact Or.inl (Or.inl h)
      · rcases List.mem_cons.mp hs with rfl | h2
        exacts [Or.inl (Or.inr hd), Or.inr ⟨seg, h2, hd⟩]

/-- The collected unique source-dof list holds exactly the source dofs
scanned from the segments. -/
lemma collectUnique_mem_iff (segs : List GSSegment) (d : GidType) :
    d ∈ GSMap.collectUnique segs ↔ ∃ seg ∈ segs, d ∈ GSMap.segSrcRead seg := by
  rw [GSMap.collectUnique, collectUnique_go_mem_iff]
  simp

/-- The collected unique source-dof list is duplicate-free. -/
lemma collectUnique_nodup (segs : List GSSegment) :
    (GSMap.collectUnique segs).Nodup := by
  rw [GSMap.collectUnique]
  induction segs with
  | nil => exact List.nodup_nil
  | cons s t ih =>
    have go : ∀ (l : List GSSegment) (acc : List GidType), acc.Nodup →
        (l.foldl (fun acc seg =>
          (GSMap.segSrcRead seg).foldl
            (fun acc2 x => if x ∈ acc2 then acc2 else acc2 ++ [x]) acc) acc).Nodup := by
      intro l
      induction l with
      | nil => intro acc h; exact h
      | cons s2 t2 ih2 =>
        intro acc h
        rw [List.foldl_cons]
        exact ih2 _ (pushNew_nodup _ acc h)
    exact go _ [] List.nodup_nil

lemma findIdx?_some_spec (p : GidType → Bool) (l : List GidType) (i : Nat)
    (h : l.findIdx? p = some i) : i < l.length ∧ p (l.getD i 0) = true := by
  induction l generalizing i with
  | nil => simp [List.findIdx?] at h
  | cons a t ih =>
    rw [List.findIdx?_cons] at h
    by_cases hp : p a
    · simp [hp] at h
      subst h
      simpa using hp
    · simp [hp] at h
      obtain ⟨j, hj, rfl⟩ := h
      obtain ⟨h1, h2⟩ := ih j hj
      constructor
      · simpa using h1
      · simpa using h2

/-- Unfolding the successful resolution loop: every resolved segment comes
from an input segment, keeping its dof, length and source dofs, with
`m_dof_idx` the result of the local-dof lookup and `m_source_idx` the
positions in the unique list. -/
lemma resolveSegs_spec (dofs unique : List GidType) :
    ∀ (segs segs' : List GSSegment),
      GSMap.resolveSegs dofs unique segs = some segs' →
      ∀ s' ∈ segs', ∃ s ∈ segs,
        dofs.findIdx? (fun g => s.m_dof = g) = some s'.m_dof_idx ∧
        s'.m_dof = s.m_dof ∧ s'.m_length = s.m_length ∧
        s'.m_source_dofs = s.m_source_dofs ∧
        s'.m_source_idx = (GSMap.segSrcRead s).map (fun d => unique.indexOf d) := by
  intro segs
  induction segs with
  | nil =>
    intro segs' h s' hs'
    rw [GSMap.resolveSegs] at h
    cases h
    simp at hs'
  | cons seg rest ih =>
    intro segs' h s' hs'
    rw [GSMap.resolveSegs] at h
    cases hidx : dofs.findIdx? (fun g => seg.m_dof = g) with
    | none => rw [hidx] at h; cases h
    | some ii =>
      rw [hidx] at h
      cases hrest : GSMap.resolveSegs dofs unique rest with
      | none => rw [hrest] at h; cases h
      | some rest' =>
        rw [hrest] at h
        cases h
        rcases List.mem_cons.mp hs' with rfl | hmem
        · exact ⟨seg, List.mem_cons_self seg rest, hidx, rfl, rfl, rfl, rfl⟩
        · obtain ⟨s, hs, hrec⟩ := ih rest' hrest s' hmem
          exact ⟨s, List.mem_cons_of_mem seg hs, hrec⟩

/-- A segment whose target dof is not among the local dofs makes the
resolution loop abort. -/
lemma resolveSegs_none (dofs unique : List GidType) :
    ∀ segs : List GSSegment,
      (∃ seg ∈ segs, seg.m_dof ∉ dofs) →
      GSMap.resolveSegs dofs unique segs = none := by
  intro segs
  induction segs with
  | nil => rintro ⟨seg, hs, _⟩; simp at hs
  | cons s rest ih =>
    rintro ⟨seg, hs, hout⟩
    rw [GSMap.resolveSegs]
    rcases List.mem_cons.mp hs with rfl | hmem
    · have hnone : dofs.findIdx? (fun g => seg.m_dof = g) = none := by
        rw [List.findIdx?_eq_none_iff]
        intro g hg
        simp only [decide_eq_false_iff_not]
        intro hc
        exact hout (by rw [hc]; exact hg)
      rw [hnone]
    · cases hidx : dofs.findIdx? (fun g => s.m_dof = g) with
      | none => rfl
      | some ii => rw [ih ⟨seg, hmem, hout⟩]

end UniqueSourceDofs

section UniqueSourceDofsSpec

/-- C5: after a successful `set_unique_source_dofs`, the unique source-dof
list is sorted ascending and duplicate-free; every segment's `m_dof_idx` is
the position of its target dof in the local dof list (and a fatal error is
raised when some segment's target dof is not locally owned); and every
`m_source_idx` entry is a valid index into the unique list whose referenced
value equals the segment's own source dof at that position. -/
theorem set_unique_source_dofs_spec (m m' : GSMap)
    (h : m.set_unique_source_dofs = some m') :
    List.Sorted (· ≤ ·) m'.m_unique_dofs ∧
    m'.m_unique_dofs.Nodup ∧
    (∀ seg ∈ m'.m_map_segments,
      seg.m_dof_idx < m.m_dofs_gids.length ∧
      m.m_dofs_gids.getD seg.m_dof_idx 0 = seg.m_dof ∧
      seg.m_source_idx.length = seg.m_length ∧
      (∀ i, i < seg.m_length →
        seg.m_source_idx.getD i 0 < m'.m_unique_dofs.length ∧
        m'.m_unique_dofs.getD (seg.m_source_idx.getD i 0) 0
          = seg.m_source_dofs.getD i 0)) ∧
    (∀ m0 : GSMap, (∃ seg ∈ m0.m_map_segments, seg.m_dof ∉ m0.m_dofs_gids) →
      m0.set_unique_source_dofs = none) := by
  simp only [GSMap.set_unique_source_dofs] at h
  cases hres : GSMap.resolveSegs m.m_dofs_gids
      ((GSMap.collectUnique m.m_map_segments).insertionSort (· ≤ ·))
      m.m_map_segments with
  | none => rw [hres] at h; cases h
  | some segs' =>
    rw [hres] at h
    injection h with h'
    subst h'
    refine ⟨?_, ?_, ?_, ?_⟩
    · exact List.sorted_insertionSort _ _
    · exact ((List.perm_insertionSort (· ≤ ·) _).nodup_iff).mpr (collectUnique_nodup _)
    · intro seg hseg
      obtain ⟨s, hs, hfind, hdof, hlen, hsrc, hidx⟩ :=
        resolveSegs_spec _ _ _ _ hres seg hseg
      obtain ⟨hlt, hpred⟩ := findIdx?_some_spec _ _ _ hfind
      have hval : s.m_dof = m.m_dofs_gids.getD seg.m_dof_idx 0 := by
        simpa using hpred
      refine ⟨hlt, by rw [hdof, ← hval], ?_, ?_⟩
      · rw [hidx]
        simp [GSMap.segSrcRead, hlen]
      · intro i hi
        have hi' : i < s.m_length := hlen ▸ hi
        have hentry : seg.m_source_idx.getD i 0
            = ((GSMap.collectUnique m.m_map_segments).insertionSort (· ≤ ·)).indexOf
                (s.m_source_dofs.getD i 0) := by
          rw [hidx]
          have hlen2 : i < ((GSMap.segSrcRead s).map
              (fun d => ((GSMap.collectUnique m.m_map_segments).insertionSort
                (· ≤ ·)).indexOf d)).length := by
            simpa [GSMap.segSrcRead] using hi'
          rw [List.getD_eq_getElem _ _ hlen2]
          simp [GSMap.segSrcRead]
        have hmem : s.m_source_dofs.getD i 0
            ∈ (GSMap.collectUnique m.m_map_segments).insertionSort (· ≤ ·) := by
          have hread : s.m_source_dofs.getD i 0 ∈ GSMap.segSrcRead s := by
            simp only [GSMap.segSrcRead]
            exact List.mem_map_of_mem _ (List.mem_range.mpr hi')
          have hcol : s.m_source_dofs.getD i 0
              ∈ GSMap.collectUnique m.m_map_segments :=
            (collectUnique_mem_iff _ _).mpr ⟨s, hs, hread⟩
          exact ((List.perm_insertionSort (· ≤ ·) _).mem_iff).mpr hcol
        have hlt2 := List.indexOf_lt_length.2 hmem
        constructor
        · rw [hentry]
          exact hlt2
        · rw [hentry, hsrc, List.getD_eq_getElem _ _ hlt2]
          exact List.getElem_indexOf hlt2
    · rintro m0 ⟨seg, hs, hout⟩
      simp only [GSMap.set_unique_source_dofs]
      rw [resolveSegs_none _ _ _ ⟨seg, hs, hout⟩]

/-- Concrete input for the C5 witness: one segment targeting dof 3 with
source dofs `{9, 5}`, on a map owning dofs `{7, 3}`. -/
def sampleMapIn5 : GSMap :=
  { m_dofs_gids := [7, 3], m_num_dofs := 2
  , m_map_segments := [{ m_dof := 3, m_length := 2, m_source_dofs := [9, 5]
                       , m_source_idx := [0, 0], m_weights := [1, 2]
                       , m_dof_idx := 0 }]
  , m_num_segments := 1, m_unique_dofs := [], m_unique_set := false
  , m_dofs_set := true }

/-- The resolved map produced from `sampleMapIn5`: unique list `[5, 9]`,
dof index 1, source indices `[1, 0]`. -/
def sampleMapOut5 : GSMap :=
  { m_dofs_gids := [7, 3], m_num_dofs := 2
  , m_map_segments := [{ m_dof := 3, m_length := 2, m_source_dofs := [9, 5]
                       , m_source_idx := [1, 0], m_weights := [1, 2]
                       , m_dof_idx := 1 }]
  , m_num_segments := 1, m_unique_dofs := [5, 9], m_unique_set := true
  , m_dofs_set := true }

/-- Witness for C5 on `sampleMapIn5`. -/
theorem set_unique_source_dofs_spec_witness :
    sampleMapIn5.set_unique_source_dofs = some sampleMapOut5 ∧
    (List.Sorted (· ≤ ·) sampleMapOut5.m_unique_dofs ∧
     sampleMapOut5.m_unique_dofs.Nodup ∧
     (∀ seg ∈ sampleMapOut5.m_map_segments,
       seg.m_dof_idx < sampleMapIn5.m_dofs_gids.length ∧
       sampleMapIn5.m_dofs_gids.getD seg.m_dof_idx 0 = seg.m_dof ∧
       seg.m_source_idx.length = seg.m_length ∧
       (∀ i, i < seg.m_length →
         seg.m_source_idx.getD i 0 < sampleMapOut5.m_unique_dofs.length ∧
         sampleMapOut5.m_unique_dofs.getD (seg.m_source_idx.getD i 0) 0
           = seg.m_source_dofs.getD i 0)) ∧
     (∀ m0 : GSMap, (∃ seg ∈ m0.m_map_segments, seg.m_dof ∉ m0.m_dofs_gids) →
       m0.set_unique_source_dofs = none)) :=
  ⟨by decide, set_unique_source_dofs_spec sampleMapIn5 sampleMapOut5 (by decide)⟩

end UniqueSourceDofsSpec

section AddRemapSegment

/-- Copying `n1` entries of `xs` and then `n2` entries of `ys` into a fresh
array of length `n2 + n1` (the two copy loops of `add_remap_segment`)
concatenates the two arrays. -/
lemma merge_copy_eq {α : Type} (xs ys : List α) (d : α) :
    (List.range (ys.length + xs.length)).map
        (fun i => if i < xs.length then xs.getD i d else ys.getD (i - xs.length) d)
      = xs ++ ys := by
  apply List.ext_getElem
  · simp [Nat.add_comm]
  · intro i h1 h2
    simp only [List.getElem_map, List.getElem_range]
    rw [List.length_append] at h2
    by_cases hi : i < xs.length
    · rw [if_pos hi, List.getElem_append_left hi]
      exact List.getD_eq_getElem xs d hi
    · rw [if_neg hi, List.getElem_append_right (le_of_not_lt hi)]
      exact List.getD_eq_getElem ys d (by omega)

lemma findIdx?_append_singleton (p : GSSegment → Bool) (l : List GSSegment)
    (s : GSSegment) (hl : ∀ x ∈ l, p x = false) (hs : p s = true) :
    (l ++ [s]).findIdx? p = some l.length := by
  induction l with
  | nil => simp [List.findIdx?_cons, hs]
  | cons a t ih =>
    rw [List.cons_append, List.findIdx?_cons, hl a (List.mem_cons_self a t)]
    simp only [Bool.false_eq_true, if_false]
    rw [List.findIdx?_succ, ih (fun x hx => hl x (List.mem_cons_of_mem a hx))]
    simp

lemma getD_append_singleton (l : List GSSegment) (a d : GSSegment) :
    (l ++ [a]).getD l.length d = a := by
  induction l with
  | nil => rfl
  | cons x t ih => simpa using ih

lemma set_append_singleton (l : List GSSegment) (a b : GSSegment) :
    (l ++ [a]).set l.length b = l ++ [b] := by
  induction l with
  | nil => rfl
  | cons x t ih => simp [List.set_cons_succ, ih]

/-- The reverse direction of `resolveSegs_spec`: every input segment has a
resolved image with the same length and source dofs. -/
lemma resolveSegs_spec_rev (dofs unique : List GidType) :
    ∀ (segs segs' : List GSSegment),
      GSMap.resolveSegs dofs unique segs = some segs' →
      ∀ s ∈ segs, ∃ s' ∈ segs',
        s'.m_length = s.m_length ∧ s'.m_source_dofs = s.m_source_dofs := by
  intro segs
  induction segs with
  | nil => intro segs' _ s hs; simp at hs
  | cons seg rest ih =>
    intro segs' h s hs
    rw [GSMap.resolveSegs] at h
    cases hidx : dofs.findIdx? (fun g => seg.m_dof = g) with
    | none => rw [hidx] at h; cases h
    | some ii =>
      rw [hidx] at h
      cases hrest : GSMap.resolveSegs dofs unique rest with
      | none => rw [hrest] at h; cases h
      | some rest' =>
        rw [hrest] at h
        cases h
        rcases List.mem_cons.mp hs with rfl | hmem
        · exact ⟨_, List.mem_cons_self _ _, rfl, rfl⟩
        · obtain ⟨s', hs', h1, h2⟩ := ih rest' hrest s hmem
          exact ⟨s', List.mem_cons_of_mem _ hs', h1, h2⟩

/-- `segSrcRead` only depends on the declared length and the source dofs. -/
lemma segSrcRead_congr {s' s : GSSegment} (h1 : s'.m_length = s.m_length)
    (h2 : s'.m_source_dofs = s.m_source_dofs) :
    GSMap.segSrcRead s' = GSMap.segSrcRead s := by
  unfold GSMap.segSrcRead
  rw [h1, h2]

/-- After a successful `set_unique_source_dofs`, the cache flag is set and
the unique list is exactly the sorted deduplication of the source dofs of
the (resolved) segments. -/
lemma set_unique_recompute (mm r : GSMap)
    (h : mm.set_unique_source_dofs = some r) :
    r.m_unique_set = true ∧ List.Sorted (· ≤ ·) r.m_unique_dofs ∧
    r.m_unique_dofs.Nodup ∧
    (∀ d, d ∈ r.m_unique_dofs ↔ ∃ seg ∈ r.m_map_segments, d ∈ GSMap.segSrcRead seg) := by
  simp only [GSMap.set_unique_source_dofs] at h
  cases hres : GSMap.resolveSegs mm.m_dofs_gids
      ((GSMap.collectUnique mm.m_map_segments).insertionSort (· ≤ ·))
      mm.m_map_segments with
  | none => rw [hres] at h; cases h
  | some segs' =>
    rw [hres] at h
    injection h with h'
    subst h'
    refine ⟨rfl, List.sorted_insertionSort _ _,
      ((List.perm_insertionSort (· ≤ ·) _).nodup_iff).mpr (collectUnique_nodup _), ?_⟩
    intro d
    rw [(List.perm_insertionSort (· ≤ ·) _).mem_iff, collectUnique_mem_iff]
    constructor
    · rintro ⟨s, hs, hd⟩
      obtain ⟨s', hs', h1, h2⟩ := resolveSegs_spec_rev _ _ _ _ hres s hs
      exact ⟨s', hs', (segSrcRead_congr h1 h2).symm ▸ hd⟩
    · rintro ⟨s', hs', hd⟩
      obtain ⟨s, hs, _, _, h1, h2, _⟩ := resolveSegs_spec _ _ _ _ hres s' hs'
      exact ⟨s, hs, (segSrcRead_congr h1 h2) ▸ hd⟩

end AddRemapSegment

section AddRemapSegmentSpec

/-- C4: on a map whose segment list does not yet carry the target dof and
whose unique cache is not resolved, adding two segments with the same
target dof leaves exactly one segment for that dof, whose length is the sum
of the two input lengths and whose source-dof and weight arrays are the
first segment's entries followed by the second segment's entries; the first
(unmatched) segment is appended as new; and whenever a segment is added to
a map whose unique cache was already resolved, the cache is recomputed for
the updated segment list. -/
theorem add_remap_segment_merge_spec (m : GSMap) (s1 s2 : GSSegment)
    (hdof : s1.m_dof = s2.m_dof)
    (hnot : ∀ s ∈ m.m_map_segments, s.m_dof ≠ s1.m_dof)
    (hu : m.m_unique_set = false)
    (hwf1 : s1.wf) (hwf2 : s2.wf) :
    ∃ m1 m2,
      m.add_remap_segment s1 = some m1 ∧
      m1.add_remap_segment s2 = some m2 ∧
      m1.m_map_segments = m.m_map_segments ++ [s1] ∧
      (m2.m_map_segments.filter (fun s => s.m_dof = s2.m_dof)).length = 1 ∧
      (∀ s ∈ m2.m_map_segments, s.m_dof = s2.m_dof →
        s.m_length = s1.m_length + s2.m_length ∧
        s.m_source_dofs = s1.m_source_dofs ++ s2.m_source_dofs ∧
        s.m_weights = s1.m_weights ++ s2.m_weights) ∧
      (∀ (m0 : GSMap) (s : GSSegment) (r : GSMap), m0.m_unique_set = true →
        m0.add_remap_segment s = some r →
        r.m_unique_set = true ∧ List.Sorted (· ≤ ·) r.m_unique_dofs ∧
        r.m_unique_dofs.Nodup ∧
        (∀ d, d ∈ r.m_unique_dofs ↔
          ∃ seg ∈ r.m_map_segments, d ∈ GSMap.segSrcRead seg)) := by
  have hnot2 : ∀ s ∈ m.m_map_segments, s.m_dof ≠ s2.m_dof :=
    fun s hs => hdof ▸ hnot s hs
  have hfind1 : m.m_map_segments.findIdx? (fun s => s.m_dof = s1.m_dof) = none := by
    rw [List.findIdx?_eq_none_iff]
    intro x hx
    exact decide_eq_false (hnot x hx)
  have hfind2 : (m.m_map_segments ++ [s1]).findIdx? (fun s => s.m_dof = s2.m_dof)
      = some m.m_map_segments.length :=
    findIdx?_append_singleton _ _ _ (fun x hx => decide_eq_false (hnot2 x hx))
      (decide_eq_true hdof)
  refine ⟨{ m with
      m_map_segments := m.m_map_segments ++ [s1],
      m_num_segments := (m.m_map_segments ++ [s1]).length },
    { m with
      m_map_segments := m.m_map_segments ++ [GSMap.mergeSegments s1 s2],
      m_num_segments := (m.m_map_segments ++ [GSMap.mergeSegments s1 s2]).length },
    ?_, ?_, rfl, ?_, ?_, ?_⟩
  · simp only [GSMap.add_remap_segment, hfind1]
    simp [hu]
  · simp only [GSMap.add_remap_segment, hfind2, getD_append_singleton,
      set_append_singleton]
    simp [hu]
  · rw [List.filter_append]
    have h1 : m.m_map_segments.filter (fun s => decide (s.m_dof = s2.m_dof)) = [] := by
      rw [List.filter_eq_nil_iff]
      intro s hs
      simp [hnot2 s hs]
    have h2 : [GSMap.mergeSegments s1 s2].filter
        (fun s => decide (s.m_dof = s2.m_dof)) = [GSMap.mergeSegments s1 s2] := by
      simp [GSMap.mergeSegments]
    rw [h1, h2]
    rfl
  · intro s hs hsdof
    rcases List.mem_append.mp hs with hmem | hmem
    · exact absurd hsdof (hnot2 s hmem)
    · have hseq : s = GSMap.mergeSegments s1 s2 := List.mem_singleton.mp hmem
      subst hseq
      obtain ⟨hw1s, hw1w, _⟩ := hwf1
      obtain ⟨hw2s, hw2w, _⟩ := hwf2
      refine ⟨Nat.add_comm s2.m_length s1.m_length ▸ rfl, ?_, ?_⟩
      · show (List.range (s2.m_length + s1.m_length)).map
            (fun i => if i < s1.m_length then s1.m_source_dofs.getD i 0
              else s2.m_source_dofs.getD (i - s1.m_length) 0)
          = s1.m_source_dofs ++ s2.m_source_dofs
        simp only [← hw1s, ← hw2s]
        exact merge_copy_eq s1.m_source_dofs s2.m_source_dofs 0
      · show (List.range (s2.m_length + s1.m_length)).map
            (fun i => if i < s1.m_length then s1.m_weights.getD i 0
              else s2.m_weights.getD (i - s1.m_length) 0)
          = s1.m_weights ++ s2.m_weights
        simp only [← hw1w, ← hw2w]
        exact merge_copy_eq s1.m_weights s2.m_weights 0
  · intro m0 s r htrue hadd
    simp only [GSMap.add_remap_segment] at hadd
    split at hadd
    · exact set_unique_recompute _ r hadd
    · next hfalse => exact absurd htrue hfalse

end AddRemapSegmentSpec

/-- Concrete input for the C4 witness: an empty map owning dof 4. -/
def sampleMap4 : GSMap :=
  { m_dofs_gids := [4], m_num_dofs := 1, m_map_segments := []
  , m_num_segments := 0, m_unique_dofs := [], m_unique_set := false
  , m_dofs_set := true }

/-- First segment added in the C4 witness. -/
def sampleSeg4a : GSSegment :=
  { m_dof := 4, m_length := 1, m_source_dofs := [1]
  , m_source_idx := [0], m_weights := [2], m_dof_idx := 0 }

/-- Second segment (same target dof) added in the C4 witness. -/
def sampleSeg4b : GSSegment :=
  { m_dof := 4, m_length := 2, m_source_dofs := [2, 3]
  , m_source_idx := [0, 0], m_weights := [3, 4], m_dof_idx := 0 }

/-- Witness for C4 on `sampleMap4` and the two segments for dof 4. -/
theorem add_remap_segment_merge_spec_witness :
    (sampleSeg4a.m_dof = sampleSeg4b.m_dof ∧
     (∀ s ∈ sampleMap4.m_map_segments, s.m_dof ≠ sampleSeg4a.m_dof) ∧
     sampleMap4.m_unique_set = false ∧ sampleSeg4a.wf ∧ sampleSeg4b.wf) ∧
    (∃ m1 m2,
      sampleMap4.add_remap_segment sampleSeg4a = some m1 ∧
      m1.add_remap_segment sampleSeg4b = some m2 ∧
      m1.m_map_segments = sampleMap4.m_map_segments ++ [sampleSeg4a] ∧
      (m2.m_map_segments.filter (fun s => s.m_dof = sampleSeg4b.m_dof)).length = 1 ∧
      (∀ s ∈ m2.m_map_segments, s.m_dof = sampleSeg4b.m_dof →
        s.m_length = sampleSeg4a.m_length + sampleSeg4b.m_length ∧
        s.m_source_dofs = sampleSeg4a.m_source_dofs ++ sampleSeg4b.m_source_dofs ∧
        s.m_weights = sampleSeg4a.m_weights ++ sampleSeg4b.m_weights) ∧
      (∀ (m0 : GSMap) (s : GSSegment) (r : GSMap), m0.m_unique_set = true →
        m0.add_remap_segment s = some r →
        r.m_unique_set = true ∧ List.Sorted (· ≤ ·) r.m_unique_dofs ∧
        r.m_unique_dofs.Nodup ∧
        (∀ d, d ∈ r.m_unique_dofs ↔
          ∃ seg ∈ r.m_map_segments, d ∈ GSMap.segSrcRead seg))) :=
  ⟨⟨by decide, by decide, by decide, by decide, by decide⟩,
   add_remap_segment_merge_spec sampleMap4 sampleSeg4a sampleSeg4b
     (by decide) (by decide) (by decide) (by decide) (by decide)⟩
